import Mathlib

/-!
# roctracer: HSA resource factory and queue submission

A shallow embedding of `src/util/hsa_rsrc_factory.cpp` (class `HsaRsrcFactory`
of namespace `roctracer::util`) together with machine-checked statements of
its contract.

Conventions of the embedding.

* Machine integers are natural numbers; every operation that can wrap in the
  C++ code carries its explicit reduction modulo `2^32` or `2^64`.
* Calls into the HSA runtime (pool allocation, access grants, signals, pool
  property queries) are oracles: a record of functions giving the status and
  the output value of each call.  Every call a function makes is also logged.
* The hardware consumer of a queue advances the read index asynchronously, so
  the producer is given the stream of values its successive loads of the read
  index return.
* A loop that may spin forever takes a bound on the number of iterations that
  are simulated; a call returns when some bound lets it finish.
* A call that `CHECK_STATUS` or `CHECK_ITER_STATUS` ends is `Except.error`.
* The catalog is passed explicitly: a member function that adds to it or
  could change it returns the catalog as the call leaves it.

The kernel and the CPU reference of the demo program
`test/MatrixTranspose/MatrixTranspose.cpp` are embedded in the namespace
`MatrixTranspose`.
-/

namespace roctracer
namespace util

/-! ## Machine words and memory -/

/-- One byte of memory. -/
abbrev Byte := Fin 256

/-- Byte-addressed memory. -/
abbrev Memory := Nat → Byte

/-- Subtraction of `uint64_t` values: the difference modulo `2^64`. -/
def u64_sub (a b : Nat) : Nat := (a + (2 ^ 64 - b % 2 ^ 64)) % 2 ^ 64

/-- Byte number `i` of a little-endian machine word. -/
def wordByte (word i : Nat) : Byte := Fin.ofNat (word / 256 ^ i)

/-- Effect of `memcpy(dst, src, src.length)` on memory. -/
def memcpy (mem : Memory) (dst : Nat) (src : List Byte) : Memory :=
  fun a => if dst ≤ a ∧ a < dst + src.length then src.getD (a - dst) (mem a) else mem a

/-- Effect of a 32-bit store of `word` at address `addr`. -/
def store32 (mem : Memory) (addr word : Nat) : Memory :=
  fun a => if addr ≤ a ∧ a < addr + 4 then wordByte word (a - addr) else mem a

/-! ## Queue submission (`HsaRsrcFactory::Submit`) -/

/-- The part of an HSA queue that `Submit` reads and writes.  The field
`write_index` is the value behind `hsa_queue_load_write_index_relaxed` and
`hsa_queue_store_write_index_relaxed`; `doorbell_signal` is the 64-bit value
last stored to the doorbell signal. -/
structure hsa_queue_t where
  base_address : Nat
  doorbell_signal : Nat
  size : Nat
  write_index : Nat

/-- A command packet, given by the byte found at each offset from the
`packet` pointer; `Submit` reads offsets `0..63`. -/
abbrev Packet := Nat → Byte

/-- The 32-bit word `slot_data[k]` of a packet (little-endian). -/
def slot_data (packet : Packet) (k : Nat) : Nat :=
  (packet (4 * k)).val + 256 * (packet (4 * k + 1)).val
    + 65536 * (packet (4 * k + 2)).val + 16777216 * (packet (4 * k + 3)).val

/-- The observable actions of one `Submit` call, in program order. -/
inductive Access where
  | store_write_index (value : Nat)
  | load_read_index (value : Nat)
  | sched_yield
  | memcpy (dst : Nat) (src : List Byte)
  | store_release (addr : Nat) (word : Nat)
  | signal_store (value : Nat)
  deriving DecidableEq, Repr

/-- Whether an action writes the memory byte at address `a`. -/
def Access.writes (e : Access) (a : Nat) : Bool :=
  match e with
  | .memcpy dst src => decide (dst ≤ a ∧ a < dst + src.length)
  | .store_release addr _ => decide (addr ≤ a ∧ a < addr + 4)
  | _ => false

/-- Memory after an action has been performed: `memcpy` copies its bytes, the
release store writes its 32-bit word, and the other actions leave the memory
as it is. -/
def Access.effect (e : Access) (mem : Memory) : Memory :=
  match e with
  | .memcpy dst src => roctracer.util.memcpy mem dst src
  | .store_release addr word => store32 mem addr word
  | _ => mem

/-- Memory after the actions of a log have been performed in order, starting
from `mem`. -/
def replay (trace : List Access) (mem : Memory) : Memory :=
  trace.foldl (fun m e => e.effect m) mem

/-- The loop `while ((write_idx - load_read_index(queue)) >= queue->size) sched_yield();`
run for at most `fuel` evaluations of its condition.  `rd k` is the value the
`k`-th load of the read index returns.  The result is the log of the loop and
whether the loop was left. -/
def waitLoop (write_idx size : Nat) (rd : Nat → Nat) : Nat → Nat → List Access × Bool
  | 0, _ => ([], false)
  | fuel + 1, k =>
    if u64_sub write_idx (rd k) ≥ size then
      let rest := waitLoop write_idx size rd fuel (k + 1)
      (Access.load_read_index (rd k) :: Access.sched_yield :: rest.1, rest.2)
    else
      ([Access.load_read_index (rd k)], true)

/-- Log of `n` iterations of the wait loop that all yield, the first of them
making load number `k` of the read index. -/
def spinLog (rd : Nat → Nat) : Nat → Nat → List Access
  | _, 0 => []
  | k, n + 1 => Access.load_read_index (rd k) :: Access.sched_yield :: spinLog rd (k + 1) n

/-- The address `queue_slot` computed by `Submit`:
`(uintptr_t)(queue->base_address) + (slot_idx * slot_size_b)` with
`slot_idx = (uint32_t)(write_idx % queue->size)`; the product is a product of
two `uint32_t`. -/
def queue_slot (queue : hsa_queue_t) : Nat :=
  let slot_size_b : Nat := 0x40
  let slot_idx := (queue.write_index % queue.size) % 2 ^ 32
  (queue.base_address + (slot_idx * slot_size_b) % 2 ^ 32) % 2 ^ 64

/-- The 60 bytes `memcpy` reads from `&slot_data[1]`. -/
def payload (packet : Packet) : List Byte :=
  (List.range (0x40 - 4)).map (fun i => packet (4 + i))

/-- State in which a `Submit` call is found: the queue, the memory, the log of
its actions so far and, once it has returned, the returned value. -/
structure SubmitOutcome where
  queue : hsa_queue_t
  mem : Memory
  trace : List Access
  ret : Option Nat

/-- The function `HsaRsrcFactory::Submit(queue, packet)`, with the wait loop
simulated for at most `fuel` evaluations of its condition.  When the loop is
still spinning after `fuel` evaluations the outcome has `ret = none`. -/
def Submit (queue : hsa_queue_t) (mem : Memory) (packet : Packet) (rd : Nat → Nat)
    (fuel : Nat) : SubmitOutcome :=
  -- advance command queue
  let write_idx := queue.write_index
  let queue1 := { queue with write_index := (write_idx + 1) % 2 ^ 64 }
  let wait := waitLoop write_idx queue.size rd fuel 0
  if wait.2 then
    -- `queue->size` is not zero here: with size zero the loop is never left
    let slot := queue_slot queue
    -- copy everything but the first dword, then publish the header
    let mem1 := memcpy mem (slot + 4) (payload packet)
    let mem2 := store32 mem1 slot (slot_data packet 0)
    -- ring the doorbell
    { queue := { queue1 with doorbell_signal := write_idx }
      mem := mem2
      trace := Access.store_write_index ((write_idx + 1) % 2 ^ 64) :: wait.1
        ++ [Access.memcpy (slot + 4) (payload packet),
            Access.store_release slot (slot_data packet 0),
            Access.signal_store write_idx]
      ret := some write_idx }
  else
    { queue := queue1
      mem := mem
      trace := Access.store_write_index ((write_idx + 1) % 2 ^ 64) :: wait.1
      ret := none }

/-- Consecutive `Submit` calls on one queue, one per packet of the list.  Call
number `j` (counted from `first`) sees the read-index stream `rds j`.  The
result lists the returned values, or is `none` when a call does not return
within `fuel`. -/
def SubmitSeq (rds : Nat → Nat → Nat) (fuel : Nat) :
    Nat → hsa_queue_t → Memory → List Packet → Option (List Nat × hsa_queue_t × Memory)
  | _, queue, mem, [] => some ([], queue, mem)
  | first, queue, mem, packet :: rest =>
    let o := Submit queue mem packet (rds first) fuel
    match o.ret with
    | none => none
    | some r =>
      match SubmitSeq rds fuel (first + 1) o.queue o.mem rest with
      | none => none
      | some (rs, q, m) => some (r :: rs, q, m)

/-! ## HSA runtime interface -/

/-- Status codes of the HSA runtime (`hsa_status_t`) that the factory tells
apart, and some of the error codes the runtime may return. -/
inductive hsa_status_t where
  | HSA_STATUS_SUCCESS
  | HSA_STATUS_INFO_BREAK
  | HSA_STATUS_ERROR
  | HSA_STATUS_ERROR_INVALID_ARGUMENT
  | HSA_STATUS_ERROR_INVALID_ALLOCATION
  | HSA_STATUS_ERROR_INVALID_AGENT
  | HSA_STATUS_ERROR_OUT_OF_RESOURCES
  | HSA_STATUS_ERROR_INVALID_SIGNAL
  deriving DecidableEq, Repr

open hsa_status_t

/-- Device types (`hsa_device_type_t`). -/
inductive hsa_device_type_t where
  | HSA_DEVICE_TYPE_CPU
  | HSA_DEVICE_TYPE_GPU
  | HSA_DEVICE_TYPE_DSP
  deriving DecidableEq, Repr

/-- Handle of an agent (`hsa_agent_t::handle`). -/
abbrev hsa_agent_t := Nat

/-- Handle of a memory pool (`hsa_amd_memory_pool_t::handle`); the
value-initialised pool `{}` has handle `0`. -/
abbrev hsa_amd_memory_pool_t := Nat

/-- Segment value `HSA_AMD_SEGMENT_GLOBAL` of `hsa_amd_segment_t`. -/
def HSA_AMD_SEGMENT_GLOBAL : Nat := 0

/-- Flag bit `HSA_AMD_MEMORY_POOL_GLOBAL_FLAG_KERNARG_INIT`. -/
def HSA_AMD_MEMORY_POOL_GLOBAL_FLAG_KERNARG_INIT : Nat := 1

/-- The null pointer. -/
def NULL : Nat := 0

/-- The calls into the HSA runtime made by the allocation, copy and pool
selection functions.  Each field gives the returned status together with the
value the call leaves in its output argument.  `hsa_signal_wait_scacquire`
returns the observed signal value. -/
structure HsaRuntime where
  hsa_amd_memory_pool_allocate : (pool : hsa_amd_memory_pool_t) → (size : Nat) → hsa_status_t × Nat
  hsa_amd_agents_allow_access : (agents : List hsa_agent_t) → (ptr : Nat) → hsa_status_t
  hsa_signal_create : (initial_value : Nat) → hsa_status_t × Nat
  hsa_amd_memory_async_copy : (dst : Nat) → (dst_agent : hsa_agent_t) → (src : Nat) →
    (src_agent : hsa_agent_t) → (size : Nat) → (completion_signal : Nat) → hsa_status_t
  hsa_signal_wait_scacquire : (signal : Nat) → Int
  hsa_signal_destroy : (signal : Nat) → hsa_status_t
  pool_info_segment : (pool : hsa_amd_memory_pool_t) → hsa_status_t × Nat
  pool_info_global_flags : (pool : hsa_amd_memory_pool_t) → hsa_status_t × Nat

/-- Log entry for one call into the HSA runtime, with its arguments. -/
inductive HsaCall where
  | memory_pool_allocate (pool : hsa_amd_memory_pool_t) (size : Nat)
  | agents_allow_access (agents : List hsa_agent_t) (ptr : Nat)
  | signal_create (initial_value : Nat)
  | memory_async_copy (dst : Nat) (dst_agent : hsa_agent_t) (src : Nat) (src_agent : hsa_agent_t)
      (size : Nat) (completion_signal : Nat)
  | signal_wait_scacquire (signal : Nat)
  | signal_destroy (signal : Nat)
  deriving DecidableEq, Repr

/-! ## The agent catalog -/

/-- The record `AgentInfo`, with the fields `hsa_rsrc_factory.cpp` assigns.
Of the character arrays, `name` is given by the bytes the runtime wrote to it
and `gfxip` by the bytes of the C string it holds. -/
structure AgentInfo where
  dev_id : hsa_agent_t
  dev_type : hsa_device_type_t
  dev_index : Nat
  name : List Byte
  gfxip : List Byte
  max_wave_size : Nat
  max_queue_size : Nat
  profile : Nat
  is_apu : Bool
  cu_num : Nat
  waves_per_cu : Nat
  simds_per_cu : Nat
  se_num : Nat
  shader_arrays_per_se : Nat
  cpu_pool : hsa_amd_memory_pool_t
  gpu_pool : hsa_amd_memory_pool_t
  kern_arg_pool : hsa_amd_memory_pool_t
  deriving DecidableEq, Repr

/-- The value-initialised record `AgentInfo{}`. -/
def AgentInfo.zero : AgentInfo :=
  { dev_id := 0, dev_type := hsa_device_type_t.HSA_DEVICE_TYPE_CPU, dev_index := 0, name := [],
    gfxip := [], max_wave_size := 0, max_queue_size := 0, profile := 0, is_apu := false, cu_num := 0,
    waves_per_cu := 0, simds_per_cu := 0, se_num := 0, shader_arrays_per_se := 0,
    cpu_pool := 0, gpu_pool := 0, kern_arg_pool := 0 }

/-- The catalog held by `HsaRsrcFactory`: the records of each class, the raw
handles of each class, and the map from raw handle to record. -/
structure HsaRsrcFactory where
  cpu_list_ : List AgentInfo
  gpu_list_ : List AgentInfo
  cpu_agents_ : List hsa_agent_t
  gpu_agents_ : List hsa_agent_t
  agent_map_ : Nat → Option AgentInfo

/-! ## Allocation (`AllocateLocalMemory`, `AllocateKernArgMemory`, `AllocateSysMemory`) -/

/-- Modelled from the spec: the constant `MEM_PAGE_MASK` is declared in
`util/hsa_rsrc_factory.h`, which is not among the sources; the spec gives the
page size 4096, so the mask is 4095. -/
def MEM_PAGE_MASK : Nat := 0xFFF

/-- The expression `(size + mask) & ~mask` on `size_t` (64 bits). -/
def round_with (mask size : Nat) : Nat :=
  ((size + mask) % 2 ^ 64) &&& (2 ^ 64 - 1 - mask)

/-- The statement `size = (size + MEM_PAGE_MASK) & ~MEM_PAGE_MASK;`. -/
def mem_page_round (size : Nat) : Nat := round_with MEM_PAGE_MASK size

/-- The function `HsaRsrcFactory::AllocateLocalMemory`: the returned pointer,
the log of runtime calls and the catalog as the call leaves it. -/
def AllocateLocalMemory (self : HsaRsrcFactory) (rt : HsaRuntime) (agent_info : AgentInfo)
    (size : Nat) : Nat × List HsaCall × HsaRsrcFactory :=
  let size := mem_page_round size
  let r := rt.hsa_amd_memory_pool_allocate agent_info.gpu_pool size
  let buffer := r.2
  let log := [HsaCall.memory_pool_allocate agent_info.gpu_pool size]
  -- Only GPU can access the memory
  if r.1 = HSA_STATUS_SUCCESS then
    let agents_list := [agent_info.dev_id]
    let status := rt.hsa_amd_agents_allow_access agents_list buffer
    (if status = HSA_STATUS_SUCCESS then buffer else NULL,
      log ++ [HsaCall.agents_allow_access agents_list buffer], self)
  else
    (NULL, log, self)

/-- Common body of `AllocateKernArgMemory` and `AllocateSysMemory`, which
differ only in the pool of `cpu_list_[0]` they allocate from: the returned
pointer, the log of runtime calls and the catalog as the call leaves it.  The
statement `auto agents_vec = cpu_agents_;` copies the member, and `push_back`
extends the copy.  The result is `none` when the code indexes `cpu_list_[0]`
in an empty vector. -/
def allocateHostMemory (pool_of : AgentInfo → hsa_amd_memory_pool_t) (self : HsaRsrcFactory)
    (rt : HsaRuntime) (agent_info : AgentInfo) (size : Nat) :
    Option (Nat × List HsaCall × HsaRsrcFactory) :=
  if self.cpu_agents_ ≠ [] then
    match self.cpu_list_ with
    | [] => none
    | cpu0 :: _ =>
      let size := mem_page_round size
      let r := rt.hsa_amd_memory_pool_allocate (pool_of cpu0) size
      let buffer := r.2
      let log := [HsaCall.memory_pool_allocate (pool_of cpu0) size]
      -- Both the CPU and GPU can access the memory
      if r.1 = HSA_STATUS_SUCCESS then
        let agents_vec := self.cpu_agents_
        let agents_vec := agents_vec ++ [agent_info.dev_id]
        let status := rt.hsa_amd_agents_allow_access agents_vec buffer
        some (if status = HSA_STATUS_SUCCESS then buffer else NULL,
          log ++ [HsaCall.agents_allow_access agents_vec buffer], self)
      else
        some (NULL, log, self)
  else
    some (NULL, [], self)

/-- The function `HsaRsrcFactory::AllocateKernArgMemory`. -/
def AllocateKernArgMemory (self : HsaRsrcFactory) (rt : HsaRuntime) (agent_info : AgentInfo)
    (size : Nat) : Option (Nat × List HsaCall × HsaRsrcFactory) :=
  allocateHostMemory AgentInfo.kern_arg_pool self rt agent_info size

/-- The function `HsaRsrcFactory::AllocateSysMemory`. -/
def AllocateSysMemory (self : HsaRsrcFactory) (rt : HsaRuntime) (agent_info : AgentInfo)
    (size : Nat) : Option (Nat × List HsaCall × HsaRsrcFactory) :=
  allocateHostMemory AgentInfo.cpu_pool self rt agent_info size

/-- A pool allocation recorded in the log returned a status other than
`HSA_STATUS_SUCCESS`. -/
def allocationFailed (rt : HsaRuntime) (log : List HsaCall) : Prop :=
  ∃ pool size, HsaCall.memory_pool_allocate pool size ∈ log ∧
    (rt.hsa_amd_memory_pool_allocate pool size).1 ≠ HSA_STATUS_SUCCESS

/-- An access grant recorded in the log returned a status other than
`HSA_STATUS_SUCCESS`. -/
def accessGrantFailed (rt : HsaRuntime) (log : List HsaCall) : Prop :=
  ∃ agents ptr, HsaCall.agents_allow_access agents ptr ∈ log ∧
    rt.hsa_amd_agents_allow_access agents ptr ≠ HSA_STATUS_SUCCESS

/-- The pointer is the buffer that a pool allocation recorded in the log
produced. -/
def allocatedBuffer (rt : HsaRuntime) (log : List HsaCall) (ptr : Nat) : Prop :=
  ∃ pool size, HsaCall.memory_pool_allocate pool size ∈ log ∧
    ptr = (rt.hsa_amd_memory_pool_allocate pool size).2

/-! ## Synchronous copy (`CopyToHost`) -/

/-- The function `HsaRsrcFactory::CopyToHost(agent, dst, src, size)`: the
returned boolean and the log of runtime calls.

The function declares `hsa_status_t status = HSA_STATUS_ERROR;` on its first
line, and the `return` statement tests that variable.  The block guarded by
`!cpu_agents_.empty()` declares a second variable with
`hsa_status_t status = hsa_signal_create(1, 0, NULL, &s);`; every later
assignment in the block goes to the second variable, whose scope ends with the
block.  The values named `_status_wait` and `_status_destroy` below are the
last values of that second variable; nothing reads them. -/
def CopyToHost (self : HsaRsrcFactory) (rt : HsaRuntime) (agent : hsa_agent_t)
    (dst src size : Nat) : Bool × List HsaCall :=
  let status := HSA_STATUS_ERROR
  let log : List HsaCall :=
    match self.cpu_agents_ with
    | [] => []
    | cpu0 :: _ =>
      let created := rt.hsa_signal_create 1
      let s := created.2
      let status_block := created.1
      if status_block = HSA_STATUS_SUCCESS then
        let status_block := rt.hsa_amd_memory_async_copy dst cpu0 src agent size s
        if status_block = HSA_STATUS_SUCCESS then
          let _status_wait :=
            if rt.hsa_signal_wait_scacquire s ≠ 0 then HSA_STATUS_ERROR else status_block
          let _status_destroy := rt.hsa_signal_destroy s
          [HsaCall.signal_create 1, HsaCall.memory_async_copy dst cpu0 src agent size s,
            HsaCall.signal_wait_scacquire s, HsaCall.signal_destroy s]
        else
          let _status_destroy := rt.hsa_signal_destroy s
          [HsaCall.signal_create 1, HsaCall.memory_async_copy dst cpu0 src agent size s,
            HsaCall.signal_destroy s]
      else
        [HsaCall.signal_create 1]
  (decide (status = HSA_STATUS_SUCCESS), log)

/-- The overload `CopyToHost(agent_info, dst, src, size)`. -/
def CopyToHostInfo (self : HsaRsrcFactory) (rt : HsaRuntime) (agent_info : AgentInfo)
    (dst src size : Nat) : Bool × List HsaCall :=
  CopyToHost self rt agent_info.dev_id dst src size

/-! ## Pool selection (`FindGlobalPool`, `FindStandardPool`, `FindKernArgPool`) -/

/-- Modelled from the spec: the statement macro `CHECK_STATUS(msg, status)` is
defined in `util/hsa_rsrc_factory.h`, which is not among the sources; by the
spec a failed lower-level query is fatal.  The macro lets control pass when
the status is `HSA_STATUS_SUCCESS` and otherwise ends the call with that
status as a fatal error. -/
def CHECK_STATUS {α : Type} (status : hsa_status_t) (next : Except hsa_status_t α) :
    Except hsa_status_t α :=
  if status = HSA_STATUS_SUCCESS then next else Except.error status

/-- The function `FindGlobalPool(pool, data, kern_arg)`.  The argument `data`
is `none` for a null pointer and `some h` for a pointer to a pool handle whose
current value is `h`.  The result is the returned status and the content of
`data` after the call, or `Except.error` when `CHECK_STATUS` ends the call. -/
def FindGlobalPool (rt : HsaRuntime) (pool : hsa_amd_memory_pool_t)
    (data : Option hsa_amd_memory_pool_t) (kern_arg : Bool) :
    Except hsa_status_t (hsa_status_t × Option hsa_amd_memory_pool_t) :=
  match data with
  | none => Except.ok (HSA_STATUS_ERROR_INVALID_ARGUMENT, none)
  | some out =>
    let seg := rt.pool_info_segment pool
    CHECK_STATUS seg.1 <|
      if HSA_AMD_SEGMENT_GLOBAL ≠ seg.2 then
        Except.ok (HSA_STATUS_SUCCESS, some out)
      else
        let flg := rt.pool_info_global_flags pool
        CHECK_STATUS flg.1 <|
          let karg_st := (flg.2 % 2 ^ 32) &&& HSA_AMD_MEMORY_POOL_GLOBAL_FLAG_KERNARG_INIT
          if (karg_st = 0 ∧ kern_arg = true) ∨ (karg_st ≠ 0 ∧ kern_arg = false) then
            Except.ok (HSA_STATUS_SUCCESS, some out)
          else
            Except.ok (HSA_STATUS_INFO_BREAK, some pool)

/-- The callback `FindStandardPool(pool, data)`. -/
def FindStandardPool (rt : HsaRuntime) (pool : hsa_amd_memory_pool_t)
    (data : Option hsa_amd_memory_pool_t) :
    Except hsa_status_t (hsa_status_t × Option hsa_amd_memory_pool_t) :=
  FindGlobalPool rt pool data false

/-- The callback `FindKernArgPool(pool, data)`. -/
def FindKernArgPool (rt : HsaRuntime) (pool : hsa_amd_memory_pool_t)
    (data : Option hsa_amd_memory_pool_t) :
    Except hsa_status_t (hsa_status_t × Option hsa_amd_memory_pool_t) :=
  FindGlobalPool rt pool data true

/-- The condition under which the pool selection takes a pool: its segment is
GLOBAL and the KERNARG_INIT bit of its global flags is set exactly when
`kern_arg` holds. -/
def poolSelected (rt : HsaRuntime) (kern_arg : Bool) (pool : hsa_amd_memory_pool_t) : Prop :=
  (rt.pool_info_segment pool).2 = HSA_AMD_SEGMENT_GLOBAL ∧
    ((rt.pool_info_global_flags pool).2 % 2 = 1 ↔ kern_arg = true)

/-- Both property queries on the pool return `HSA_STATUS_SUCCESS`. -/
def poolQueriesSucceed (rt : HsaRuntime) (pool : hsa_amd_memory_pool_t) : Prop :=
  (rt.pool_info_segment pool).1 = HSA_STATUS_SUCCESS ∧
    (rt.pool_info_global_flags pool).1 = HSA_STATUS_SUCCESS

/-- Attributes of an accelerator that `AddAgentInfo` queries with
`hsa_agent_get_info`, besides the device type and the name. -/
inductive hsa_agent_info_t where
  | HSA_AGENT_INFO_WAVEFRONT_SIZE
  | HSA_AGENT_INFO_QUEUE_MAX_SIZE
  | HSA_AGENT_INFO_PROFILE
  | HSA_AMD_AGENT_INFO_COMPUTE_UNIT_COUNT
  | HSA_AMD_AGENT_INFO_MAX_WAVES_PER_CU
  | HSA_AMD_AGENT_INFO_NUM_SIMDS_PER_CU
  | HSA_AMD_AGENT_INFO_NUM_SHADER_ENGINES
  | HSA_AMD_AGENT_INFO_NUM_SHADER_ARRAYS_PER_SE
  deriving DecidableEq, Repr

/-- Profile value `HSA_PROFILE_FULL` of `hsa_profile_t`. -/
def HSA_PROFILE_FULL : Nat := 1

/-- The HSA runtime together with the agents it exposes.  The field
`agent_info_device` is the query `hsa_agent_get_info(agent, HSA_AGENT_INFO_DEVICE, &type)`
with its status; `agent_info_name` and `agent_info_value` give what the other
queries leave in their output (their status is not looked at by the code), the
name as the bytes written to the character array;
`agent_pools` lists the memory pools of an agent in the order in which
`hsa_amd_agent_iterate_memory_pools` visits them. -/
structure HsaPlatform extends HsaRuntime where
  agent_info_device : hsa_agent_t → hsa_status_t × hsa_device_type_t
  agent_info_name : hsa_agent_t → List Byte
  agent_info_value : hsa_agent_t → hsa_agent_info_t → Nat
  agent_pools : hsa_agent_t → List hsa_amd_memory_pool_t

/-- The runtime function `hsa_amd_agent_iterate_memory_pools(agent, callback, data)`
over the pools of the agent: the callback is invoked on each pool in order, the
traversal stops at the first returned status other than `HSA_STATUS_SUCCESS`,
and that status is returned; when every invocation returns
`HSA_STATUS_SUCCESS` so does the traversal.  The result is the status, the
content of `data` after the traversal and the pools on which the callback was
invoked, or `Except.error` when `CHECK_STATUS` ends the call inside the
callback. -/
def hsa_amd_agent_iterate_memory_pools
    (callback : hsa_amd_memory_pool_t → Option hsa_amd_memory_pool_t →
      Except hsa_status_t (hsa_status_t × Option hsa_amd_memory_pool_t)) :
    List hsa_amd_memory_pool_t → Option hsa_amd_memory_pool_t →
      Except hsa_status_t
        (hsa_status_t × Option hsa_amd_memory_pool_t × List hsa_amd_memory_pool_t)
  | [], data => Except.ok (HSA_STATUS_SUCCESS, data, [])
  | pool :: rest, data =>
    match callback pool data with
    | Except.error e => Except.error e
    | Except.ok (status, data1) =>
      if status = HSA_STATUS_SUCCESS then
        match hsa_amd_agent_iterate_memory_pools callback rest data1 with
        | Except.error e => Except.error e
        | Except.ok (st, data2, visited) => Except.ok (st, data2, pool :: visited)
      else
        Except.ok (status, data1, [pool])

/-- The statement macro `CHECK_ITER_STATUS(msg, status)` is defined in
`util/hsa_rsrc_factory.h`, which is not among the sources.  Its test is taken
as the parameter `passes`: the macro lets control pass for the statuses on
which `passes` holds and otherwise ends the call with the status as a fatal
error. -/
def CHECK_ITER_STATUS {α : Type} (passes : hsa_status_t → Bool) (status : hsa_status_t)
    (next : Except hsa_status_t α) : Except hsa_status_t α :=
  if passes status = true then next else Except.error status

/-- The catalog of a factory under construction, before discovery. -/
def HsaRsrcFactory.empty : HsaRsrcFactory :=
  { cpu_list_ := [], gpu_list_ := [], cpu_agents_ := [], gpu_agents_ := [],
    agent_map_ := fun _ => none }

/-- The statement `agent_map_[agent.handle] = agent_info;`. -/
def HsaRsrcFactory.register (self : HsaRsrcFactory) (agent : hsa_agent_t)
    (agent_info : AgentInfo) : HsaRsrcFactory :=
  { self with agent_map_ := fun h => if h = agent then some agent_info else self.agent_map_ h }

/-- The block of `AddAgentInfo` guarded by `type == HSA_DEVICE_TYPE_CPU`,
followed by the registration `agent_map_[agent.handle] = agent_info` and the
`return`.  The field `dev_index` is a `uint32_t`. -/
def addCpuAgent (passes : hsa_status_t → Bool) (pf : HsaPlatform) (self : HsaRsrcFactory)
    (agent : hsa_agent_t) : Except hsa_status_t (HsaRsrcFactory × Option AgentInfo) :=
  let agent_info : AgentInfo :=
    { AgentInfo.zero with
      dev_id := agent
      dev_type := hsa_device_type_t.HSA_DEVICE_TYPE_CPU
      dev_index := self.cpu_list_.length % 2 ^ 32 }
  match hsa_amd_agent_iterate_memory_pools (FindStandardPool pf.toHsaRuntime)
      (pf.agent_pools agent) (some agent_info.cpu_pool) with
  | Except.error e => Except.error e
  | Except.ok (status, cpu_pool, _) =>
    CHECK_ITER_STATUS passes status <|
      match hsa_amd_agent_iterate_memory_pools (FindKernArgPool pf.toHsaRuntime)
          (pf.agent_pools agent) (some agent_info.kern_arg_pool) with
      | Except.error e => Except.error e
      | Except.ok (status, kern_arg_pool, _) =>
        CHECK_ITER_STATUS passes status <|
          let agent_info : AgentInfo :=
            { agent_info with
              cpu_pool := cpu_pool.getD agent_info.cpu_pool
              kern_arg_pool := kern_arg_pool.getD agent_info.kern_arg_pool
              gpu_pool := 0 }
          Except.ok
            (({ self with
                cpu_list_ := self.cpu_list_ ++ [agent_info]
                cpu_agents_ := self.cpu_agents_ ++ [agent] } : HsaRsrcFactory).register
              agent agent_info, some agent_info)

/-- The C string that `strncpy(dst, src, n); dst[n] = 0;` leaves in `dst`: the
first `n` bytes of the string in `src`, which ends before its first zero
byte. -/
def strncpy (src : List Byte) (n : Nat) : List Byte :=
  (src.takeWhile (fun b => decide (b ≠ 0))).take n

/-- The record of an accelerator as `AddAgentInfo` fills it before the pool
iteration: the queried attributes, `gfxip` the first four bytes of the name,
`is_apu` set for the full profile, and the host pools empty. -/
def gpuAgentRecord (pf : HsaPlatform) (agent : hsa_agent_t) : AgentInfo :=
  let name := pf.agent_info_name agent
  let profile := pf.agent_info_value agent hsa_agent_info_t.HSA_AGENT_INFO_PROFILE
  { AgentInfo.zero with
    dev_id := agent
    dev_type := hsa_device_type_t.HSA_DEVICE_TYPE_GPU
    name := name
    gfxip := strncpy name 4
    max_wave_size := pf.agent_info_value agent hsa_agent_info_t.HSA_AGENT_INFO_WAVEFRONT_SIZE
    max_queue_size := pf.agent_info_value agent hsa_agent_info_t.HSA_AGENT_INFO_QUEUE_MAX_SIZE
    profile := profile
    is_apu := decide (profile = HSA_PROFILE_FULL)
    cu_num :=
      pf.agent_info_value agent hsa_agent_info_t.HSA_AMD_AGENT_INFO_COMPUTE_UNIT_COUNT
    waves_per_cu :=
      pf.agent_info_value agent hsa_agent_info_t.HSA_AMD_AGENT_INFO_MAX_WAVES_PER_CU
    simds_per_cu :=
      pf.agent_info_value agent hsa_agent_info_t.HSA_AMD_AGENT_INFO_NUM_SIMDS_PER_CU
    se_num := pf.agent_info_value agent hsa_agent_info_t.HSA_AMD_AGENT_INFO_NUM_SHADER_ENGINES
    shader_arrays_per_se :=
      pf.agent_info_value agent hsa_agent_info_t.HSA_AMD_AGENT_INFO_NUM_SHADER_ARRAYS_PER_SE
    cpu_pool := 0
    kern_arg_pool := 0 }

/-- The block of `AddAgentInfo` guarded by `type == HSA_DEVICE_TYPE_GPU`,
followed by the registration `agent_map_[agent.handle] = agent_info` and the
`return`. -/
def addGpuAgent (passes : hsa_status_t → Bool) (pf : HsaPlatform) (self : HsaRsrcFactory)
    (agent : hsa_agent_t) : Except hsa_status_t (HsaRsrcFactory × Option AgentInfo) :=
  let agent_info := gpuAgentRecord pf agent
  match hsa_amd_agent_iterate_memory_pools (FindStandardPool pf.toHsaRuntime)
      (pf.agent_pools agent) (some agent_info.gpu_pool) with
  | Except.error e => Except.error e
  | Except.ok (status, gpu_pool, _) =>
    CHECK_ITER_STATUS passes status <|
      -- Set GPU index
      let agent_info : AgentInfo :=
        { agent_info with
          gpu_pool := gpu_pool.getD agent_info.gpu_pool
          dev_index := self.gpu_list_.length % 2 ^ 32 }
      Except.ok
        (({ self with
            gpu_list_ := self.gpu_list_ ++ [agent_info]
            gpu_agents_ := self.gpu_agents_ ++ [agent] } : HsaRsrcFactory).register
          agent agent_info, some agent_info)

/-- The function `HsaRsrcFactory::AddAgentInfo(agent)`: the catalog after the
call and the returned record (`none` for a null pointer), or `Except.error`
when `CHECK_STATUS` or `CHECK_ITER_STATUS` ends the call.  The two `if`
statements on the device type exclude each other and are the first two cases
of the `match`; for any other device type `agent_info` stays null and nothing
is stored. -/
def AddAgentInfo (passes : hsa_status_t → Bool) (pf : HsaPlatform) (self : HsaRsrcFactory)
    (agent : hsa_agent_t) : Except hsa_status_t (HsaRsrcFactory × Option AgentInfo) :=
  let dev := pf.agent_info_device agent
  CHECK_STATUS dev.1 <|
    match dev.2 with
    | hsa_device_type_t.HSA_DEVICE_TYPE_CPU => addCpuAgent passes pf self agent
    | hsa_device_type_t.HSA_DEVICE_TYPE_GPU => addGpuAgent passes pf self agent
    | hsa_device_type_t.HSA_DEVICE_TYPE_DSP => Except.ok (self, none)

/-- The callback `HsaRsrcFactory::GetHsaAgentsCallback(agent, data)`: the
returned status and the catalog `data` points to after the call. -/
def GetHsaAgentsCallback (passes : hsa_status_t → Bool) (pf : HsaPlatform)
    (agent : hsa_agent_t) (data : HsaRsrcFactory) :
    Except hsa_status_t (hsa_status_t × HsaRsrcFactory) :=
  match AddAgentInfo passes pf data agent with
  | Except.error e => Except.error e
  | Except.ok (hsa_rsrc, agent_info) =>
    Except.ok (if agent_info ≠ none then HSA_STATUS_SUCCESS else HSA_STATUS_ERROR, hsa_rsrc)

/-- The runtime function `hsa_iterate_agents(callback, data)` over the agents
of the platform in enumeration order: the traversal stops at the first
returned status other than `HSA_STATUS_SUCCESS`, and that status is
returned. -/
def hsa_iterate_agents
    (callback : hsa_agent_t → HsaRsrcFactory → Except hsa_status_t (hsa_status_t × HsaRsrcFactory)) :
    List hsa_agent_t → HsaRsrcFactory → Except hsa_status_t (hsa_status_t × HsaRsrcFactory)
  | [], data => Except.ok (HSA_STATUS_SUCCESS, data)
  | agent :: rest, data =>
    match callback agent data with
    | Except.error e => Except.error e
    | Except.ok (status, data1) =>
      if status = HSA_STATUS_SUCCESS then hsa_iterate_agents callback rest data1
      else Except.ok (status, data1)

/-- The discovery made by the constructor of `HsaRsrcFactory`:
`status = hsa_iterate_agents(GetHsaAgentsCallback, this); CHECK_STATUS(..., status);`
on a platform that enumerates `agents`. -/
def discover (passes : hsa_status_t → Bool) (pf : HsaPlatform) (agents : List hsa_agent_t) :
    Except hsa_status_t HsaRsrcFactory :=
  match hsa_iterate_agents (GetHsaAgentsCallback passes pf) agents HsaRsrcFactory.empty with
  | Except.error e => Except.error e
  | Except.ok (status, self) => CHECK_STATUS status (Except.ok self)

/-- Catalogs that calls of `AddAgentInfo` build from the empty catalog. -/
inductive Discovered (passes : hsa_status_t → Bool) (pf : HsaPlatform) : HsaRsrcFactory → Prop where
  | empty : Discovered passes pf HsaRsrcFactory.empty
  | add (self next : HsaRsrcFactory) (agent : hsa_agent_t) (agent_info : Option AgentInfo) :
      Discovered passes pf self →
      AddAgentInfo passes pf self agent = Except.ok (next, agent_info) →
      Discovered passes pf next

/-! ## Catalog queries -/

/-- The function `HsaRsrcFactory::GetAgentInfo(agent)`; `none` is the null
pointer. -/
def GetAgentInfo (self : HsaRsrcFactory) (agent : hsa_agent_t) : Option AgentInfo :=
  self.agent_map_ agent

/-- The function `HsaRsrcFactory::GetCountOfGpuAgents()`. -/
def GetCountOfGpuAgents (self : HsaRsrcFactory) : Nat := self.gpu_list_.length % 2 ^ 32

/-- The function `HsaRsrcFactory::GetCountOfCpuAgents()`. -/
def GetCountOfCpuAgents (self : HsaRsrcFactory) : Nat := self.cpu_list_.length % 2 ^ 32

/-- The function `HsaRsrcFactory::GetGpuAgentInfo(idx, agent_info)`: the
returned boolean and the content of `*agent_info` after the call. -/
def GetGpuAgentInfo (self : HsaRsrcFactory) (idx : Nat) (agent_info : Option AgentInfo) :
    Bool × Option AgentInfo :=
  let size := self.gpu_list_.length % 2 ^ 32
  if idx ≥ size then (false, agent_info) else (true, self.gpu_list_[idx]?)

/-- The function `HsaRsrcFactory::GetCpuAgentInfo(idx, agent_info)`: the
returned boolean and the content of `*agent_info` after the call. -/
def GetCpuAgentInfo (self : HsaRsrcFactory) (idx : Nat) (agent_info : Option AgentInfo) :
    Bool × Option AgentInfo :=
  let size := self.cpu_list_.length % 2 ^ 32
  if idx ≥ size then (false, agent_info) else (true, self.cpu_list_[idx]?)

/-- What holds of every catalog built by `AddAgentInfo`: the raw-handle lists
are the handles of the records, a record at position `i` of its class has
`dev_index` equal to `i` (as a `uint32_t`), every record was returned by a
call of `AddAgentInfo` for its class, the handle map sends a handle to a
record with that handle found in the sequence of its class, and the handles
with a map entry are those of the raw-handle lists. -/
structure CatalogInv (passes : hsa_status_t → Bool) (pf : HsaPlatform) (f : HsaRsrcFactory) :
    Prop where
  cpu_agents : f.cpu_agents_ = f.cpu_list_.map AgentInfo.dev_id
  gpu_agents : f.gpu_agents_ = f.gpu_list_.map AgentInfo.dev_id
  cpu_index : ∀ (i : Nat) (r : AgentInfo), f.cpu_list_[i]? = some r → r.dev_index = i % 2 ^ 32
  gpu_index : ∀ (i : Nat) (r : AgentInfo), f.gpu_list_[i]? = some r → r.dev_index = i % 2 ^ 32
  cpu_origin : ∀ r, r ∈ f.cpu_list_ →
    ∃ self next, addCpuAgent passes pf self r.dev_id = Except.ok (next, some r)
  gpu_origin : ∀ r, r ∈ f.gpu_list_ →
    ∃ self next, addGpuAgent passes pf self r.dev_id = Except.ok (next, some r)
  map_record : ∀ (h : hsa_agent_t) (r : AgentInfo), f.agent_map_ h = some r →
    r.dev_id = h ∧
      ((r.dev_type = hsa_device_type_t.HSA_DEVICE_TYPE_CPU ∧ r ∈ f.cpu_list_) ∨
        (r.dev_type = hsa_device_type_t.HSA_DEVICE_TYPE_GPU ∧ r ∈ f.gpu_list_))
  map_domain : ∀ h : hsa_agent_t,
    f.agent_map_ h ≠ none ↔ (h ∈ f.cpu_agents_ ∨ h ∈ f.gpu_agents_)

/-! ## Sample platform

A catalog with one host agent and one accelerator, and a runtime in which
every call succeeds; used to instantiate the statements below. -/

/-- A host agent record with handle 1, system pool 11, kernel-argument pool 12. -/
def sampleCpu : AgentInfo :=
  { AgentInfo.zero with dev_id := 1, cpu_pool := 11, kern_arg_pool := 12 }

/-- An accelerator record with handle 2 and device-local pool 21. -/
def sampleGpu : AgentInfo :=
  { AgentInfo.zero with
    dev_id := 2
    dev_type := hsa_device_type_t.HSA_DEVICE_TYPE_GPU
    gpu_pool := 21 }

/-- The catalog holding `sampleCpu` and `sampleGpu`. -/
def sampleFactory : HsaRsrcFactory :=
  { cpu_list_ := [sampleCpu], gpu_list_ := [sampleGpu], cpu_agents_ := [1], gpu_agents_ := [2],
    agent_map_ := fun h => if h = 1 then some sampleCpu else if h = 2 then some sampleGpu else none }

/-- The catalog of a platform without host agent. -/
def gpuOnlyFactory : HsaRsrcFactory :=
  { cpu_list_ := [], gpu_list_ := [sampleGpu], cpu_agents_ := [], gpu_agents_ := [2],
    agent_map_ := fun h => if h = 2 then some sampleGpu else none }

/-- A runtime in which every call succeeds: allocation returns the address
`0x10000`, a created signal has handle 7, the wait observes the value 0; pool
`p` is in the global segment when `p` is not zero and carries the
kernel-argument flag when `p` is even. -/
def sampleRuntime : HsaRuntime :=
  { hsa_amd_memory_pool_allocate := fun _ _ => (HSA_STATUS_SUCCESS, 0x10000)
    hsa_amd_agents_allow_access := fun _ _ => HSA_STATUS_SUCCESS
    hsa_signal_create := fun _ => (HSA_STATUS_SUCCESS, 7)
    hsa_amd_memory_async_copy := fun _ _ _ _ _ _ => HSA_STATUS_SUCCESS
    hsa_signal_wait_scacquire := fun _ => 0
    hsa_signal_destroy := fun _ => HSA_STATUS_SUCCESS
    pool_info_segment := fun p => (HSA_STATUS_SUCCESS, if p = 0 then 1 else 0)
    pool_info_global_flags := fun p => (HSA_STATUS_SUCCESS, if p % 2 = 0 then 1 else 0) }

/-- A queue of capacity 8 at address `0x1000` with write index 0. -/
def sampleQueue : hsa_queue_t :=
  { base_address := 0x1000, doorbell_signal := 0, size := 8, write_index := 0 }

/-- The packet whose byte at offset `i` is `i`. -/
def samplePacket : Packet := fun i => Fin.ofNat i

/-- Memory filled with zero bytes. -/
def zeroMemory : Memory := fun _ => 0

/-- A platform over `sampleRuntime` with host agent 1 (pools 11 and 12),
accelerator 2 (pool 21) and a DSP with handle 3. -/
def samplePlatform : HsaPlatform :=
  { sampleRuntime with
    agent_info_device := fun a =>
      (HSA_STATUS_SUCCESS,
        if a = 1 then hsa_device_type_t.HSA_DEVICE_TYPE_CPU
        else if a = 2 then hsa_device_type_t.HSA_DEVICE_TYPE_GPU
        else hsa_device_type_t.HSA_DEVICE_TYPE_DSP)
    agent_info_name := fun _ => []
    agent_info_value := fun _ _ => 0
    agent_pools := fun a => if a = 1 then [11, 12] else if a = 2 then [21] else [] }

/-- The test of `CHECK_ITER_STATUS` that lets only `HSA_STATUS_INFO_BREAK`
pass. -/
def passesOnBreak (status : hsa_status_t) : Bool := decide (status = HSA_STATUS_INFO_BREAK)

/-- The catalog that discovery builds on `samplePlatform` when the runtime
enumerates the agents 1 and 2 and `CHECK_ITER_STATUS` lets only
`HSA_STATUS_INFO_BREAK` pass. -/
def sampleDiscovered : HsaRsrcFactory :=
  match discover passesOnBreak samplePlatform [1, 2] with
  | Except.ok f => f
  | Except.error _ => HsaRsrcFactory.empty

end util
end roctracer

namespace MatrixTranspose

/-! ## Demo program `test/MatrixTranspose/MatrixTranspose.cpp`

Arrays are functions from the index to the element; the element type is a
parameter, the kernel and the reference only copying elements. -/

end MatrixTranspose

namespace roctracer
namespace util

open hsa_status_t

/-! ## The wait loop -/

theorem waitLoop_exit (W C : Nat) (rd : Nat → Nat) :
    ∀ (d fuel k : Nat), u64_sub W (rd (k + d)) < C → d < fuel →
      (waitLoop W C rd fuel k).2 = true := by
  intro d
  induction d with
  | zero =>
    intro fuel k h hf
    cases fuel with
    | zero => omega
    | succ f =>
      have hk : ¬ (u64_sub W (rd k) ≥ C) := by simpa using h
      simp [waitLoop, hk]
  | succ d ih =>
    intro fuel k h hf
    cases fuel with
    | zero => omega
    | succ f =>
      simp only [waitLoop]
      split
      · exact ih f (k + 1) (by rwa [show k + 1 + d = k + (d + 1) by omega]) (by omega)
      · rfl

theorem waitLoop_true (W C : Nat) (rd : Nat → Nat) :
    ∀ (fuel k : Nat), (waitLoop W C rd fuel k).2 = true →
      ∃ n, n < fuel ∧ (∀ j, j < n → C ≤ u64_sub W (rd (k + j))) ∧ u64_sub W (rd (k + n)) < C ∧
        (waitLoop W C rd fuel k).1 = spinLog rd k n ++ [Access.load_read_index (rd (k + n))] := by
  intro fuel
  induction fuel with
  | zero => intro k h; simp [waitLoop] at h
  | succ f ih =>
    intro k h
    by_cases hc : u64_sub W (rd k) ≥ C
    · simp only [waitLoop, hc, if_true] at h ⊢
      obtain ⟨n, hn, hlt, hex, hlog⟩ := ih (k + 1) h
      refine ⟨n + 1, by omega, ?_, ?_, ?_⟩
      · intro j hj
        cases j with
        | zero => simpa using hc
        | succ j =>
          have := hlt j (by omega)
          rwa [show k + 1 + j = k + (j + 1) by omega] at this
      · rwa [show k + 1 + n = k + (n + 1) by omega] at hex
      · rw [hlog, show k + 1 + n = k + (n + 1) by omega]
        simp [spinLog]
    · refine ⟨0, by omega, ?_, ?_, ?_⟩
      · intro j hj; omega
      · simpa using hc
      · simp [waitLoop, hc, spinLog]

theorem waitLoop_spin (W C : Nat) (rd : Nat → Nat) :
    ∀ (fuel k : Nat), (∀ j, j < fuel → C ≤ u64_sub W (rd (k + j))) →
      waitLoop W C rd fuel k = (spinLog rd k fuel, false) := by
  intro fuel
  induction fuel with
  | zero => intro k _; simp [waitLoop, spinLog]
  | succ f ih =>
    intro k h
    have h0 : u64_sub W (rd k) ≥ C := by simpa using h 0 (by omega)
    have hrest : ∀ j, j < f → C ≤ u64_sub W (rd (k + 1 + j)) := by
      intro j hj
      have := h (j + 1) (by omega)
      rwa [show k + (j + 1) = k + 1 + j by omega] at this
    simp [waitLoop, h0, ih (k + 1) hrest, spinLog]

/-! ## Outcome of `Submit` -/

theorem Submit_of_exit (queue : hsa_queue_t) (mem : Memory) (packet : Packet) (rd : Nat → Nat)
    (fuel : Nat) (h : (waitLoop queue.write_index queue.size rd fuel 0).2 = true) :
    Submit queue mem packet rd fuel =
      { queue := { queue with write_index := (queue.write_index + 1) % 2 ^ 64,
                              doorbell_signal := queue.write_index }
        mem := store32 (memcpy mem (queue_slot queue + 4) (payload packet)) (queue_slot queue)
          (slot_data packet 0)
        trace := Access.store_write_index ((queue.write_index + 1) % 2 ^ 64) ::
          (waitLoop queue.write_index queue.size rd fuel 0).1
            ++ [Access.memcpy (queue_slot queue + 4) (payload packet),
                Access.store_release (queue_slot queue) (slot_data packet 0),
                Access.signal_store queue.write_index]
        ret := some queue.write_index } := by
  simp [Submit, h]

theorem Submit_of_spin (queue : hsa_queue_t) (mem : Memory) (packet : Packet) (rd : Nat → Nat)
    (fuel : Nat) (h : (waitLoop queue.write_index queue.size rd fuel 0).2 = false) :
    Submit queue mem packet rd fuel =
      { queue := { queue with write_index := (queue.write_index + 1) % 2 ^ 64 }
        mem := mem
        trace := Access.store_write_index ((queue.write_index + 1) % 2 ^ 64) ::
          (waitLoop queue.write_index queue.size rd fuel 0).1
        ret := none } := by
  simp [Submit, h]

theorem Submit_ret_iff (queue : hsa_queue_t) (mem : Memory) (packet : Packet) (rd : Nat → Nat)
    (fuel : Nat) :
    (Submit queue mem packet rd fuel).ret ≠ none ↔
      (waitLoop queue.write_index queue.size rd fuel 0).2 = true := by
  cases h : (waitLoop queue.write_index queue.size rd fuel 0).2
  · simp [Submit_of_spin queue mem packet rd fuel h]
  · simp [Submit_of_exit queue mem packet rd fuel h]

theorem exists_uniform_bound (P : Nat → Nat → Prop) :
    ∀ N : Nat, (∀ j, j < N → ∃ k, P j k) → ∃ b, ∀ j, j < N → ∃ k, k < b ∧ P j k := by
  intro N
  induction N with
  | zero => intro _; exact ⟨0, fun j hj => absurd hj (Nat.not_lt_zero j)⟩
  | succ N ih =>
    intro h
    obtain ⟨b, hb⟩ := ih (fun j hj => h j (by omega))
    obtain ⟨k, hk⟩ := h N (by omega)
    refine ⟨max b (k + 1), ?_⟩
    intro j hj
    by_cases hjN : j < N
    · obtain ⟨k', hk', hP⟩ := hb j hjN
      exact ⟨k', by omega, hP⟩
    · have : j = N := by omega
      subst this
      exact ⟨k, by omega, hk⟩

theorem SubmitSeq_range (rds : Nat → Nat → Nat) (fuel : Nat) :
    ∀ (packets : List Packet) (first : Nat) (queue : hsa_queue_t) (mem : Memory),
      queue.write_index = first % 2 ^ 64 → first + packets.length ≤ 2 ^ 64 →
      (∀ j, j < packets.length → ∃ k, k < fuel ∧
          u64_sub (first + j) (rds (first + j) k) < queue.size) →
      ∃ q m, SubmitSeq rds fuel first queue mem packets
            = some (List.range' first packets.length, q, m)
        ∧ q.write_index = (first + packets.length) % 2 ^ 64 ∧ q.size = queue.size
        ∧ q.base_address = queue.base_address := by
  intro packets
  induction packets with
  | nil =>
    intro first queue mem hw _ _
    exact ⟨queue, mem, by simp [SubmitSeq], by simpa using hw, rfl, rfl⟩
  | cons p rest ih =>
    intro first queue mem hw hlen hk
    simp only [List.length_cons] at hlen hk
    have hW : queue.write_index = first := by rw [hw]; exact Nat.mod_eq_of_lt (by omega)
    obtain ⟨k, hkf, hk0⟩ := hk 0 (by omega)
    have hexit : (waitLoop queue.write_index queue.size (rds first) fuel 0).2 = true :=
      waitLoop_exit _ _ _ k fuel 0 (by simpa [hW] using hk0) hkf
    have hS := Submit_of_exit queue mem p (rds first) fuel hexit
    have hrest : ∀ j, j < rest.length → ∃ k, k < fuel ∧
        u64_sub (first + 1 + j) (rds (first + 1 + j) k)
          < (Submit queue mem p (rds first) fuel).queue.size := by
      intro j hj
      obtain ⟨k', hk', hP⟩ := hk (j + 1) (by omega)
      refine ⟨k', hk', ?_⟩
      rw [hS, show first + 1 + j = first + (j + 1) by omega]
      exact hP
    obtain ⟨q, m, hseq, hq1, hq2, hq3⟩ :=
      ih (first + 1) (Submit queue mem p (rds first) fuel).queue
        (Submit queue mem p (rds first) fuel).mem (by rw [hS, hW]) (by omega) hrest
    refine ⟨q, m, ?_, ?_, ?_, ?_⟩
    · have hret : (Submit queue mem p (rds first) fuel).ret = some first := by rw [hS, hW]
      simp only [SubmitSeq, hret, hseq, List.length_cons, List.range'_succ]
    · rw [hq1, List.length_cons]; congr 1; omega
    · rw [hq2, hS]
    · rw [hq3, hS]

theorem spinLog_mem (rd : Nat → Nat) :
    ∀ (n k : Nat) (e : Access), e ∈ spinLog rd k n →
      (∃ v, e = Access.load_read_index v) ∨ e = Access.sched_yield := by
  intro n
  induction n with
  | zero => intro k e he; simp [spinLog] at he
  | succ n ih =>
    intro k e he
    simp only [spinLog, List.mem_cons] at he
    rcases he with rfl | rfl | he
    · exact Or.inl ⟨_, rfl⟩
    · exact Or.inr rfl
    · exact ih (k + 1) e he

theorem waitLoop_mem (W C : Nat) (rd : Nat → Nat) (fuel k : Nat) (e : Access)
    (h : (waitLoop W C rd fuel k).2 = true) (he : e ∈ (waitLoop W C rd fuel k).1) :
    (∃ v, e = Access.load_read_index v) ∨ e = Access.sched_yield := by
  obtain ⟨n, _, _, _, hlog⟩ := waitLoop_true W C rd fuel k h
  rw [hlog, List.mem_append] at he
  rcases he with he | he
  · exact spinLog_mem rd n k e he
  · exact Or.inl ⟨_, by simpa using he⟩

/-! ## Memory effect of the slot write -/

theorem payload_length (packet : Packet) : (payload packet).length = 60 := by
  simp [payload]

theorem payload_getD (packet : Packet) (i : Nat) (d : Byte) (h : i < 60) :
    (payload packet).getD i d = packet (4 + i) := by
  simp [payload, List.getD_eq_getElem?_getD, List.getElem?_map, List.getElem?_range, h]

theorem wordByte_slot_data (packet : Packet) (i : Nat) (h : i < 4) :
    wordByte (slot_data packet 0) i = packet i := by
  have h0 := (packet 0).isLt
  have h1 := (packet 1).isLt
  have h2 := (packet 2).isLt
  have h3 := (packet 3).isLt
  apply Fin.ext
  simp only [wordByte, slot_data, Fin.ofNat, Nat.mul_zero, Nat.zero_add]
  interval_cases i
  · simp only [Nat.pow_zero, Nat.div_one]; omega
  · simp only [Nat.pow_one]; omega
  · simp only [show 256 ^ 2 = 65536 by norm_num]; omega
  · simp only [show 256 ^ 3 = 16777216 by norm_num]; omega

theorem slot_write_inside (mem : Memory) (packet : Packet) (slot i : Nat) (h : i < 64) :
    store32 (memcpy mem (slot + 4) (payload packet)) slot (slot_data packet 0) (slot + i)
      = packet i := by
  by_cases hi : i < 4
  · have hr : slot ≤ slot + i ∧ slot + i < slot + 4 := ⟨by omega, by omega⟩
    simp only [store32, hr, and_self, if_true, Nat.add_sub_cancel_left]
    exact wordByte_slot_data packet i hi
  · have hr : ¬ (slot ≤ slot + i ∧ slot + i < slot + 4) := by omega
    have hm : slot + 4 ≤ slot + i ∧ slot + i < slot + 4 + (payload packet).length := by
      rw [payload_length]; omega
    simp only [store32, hr, if_false, memcpy, hm, and_self, if_true]
    rw [show slot + i - (slot + 4) = i - 4 by omega, payload_getD packet (i - 4) _ (by omega)]
    congr 1
    omega

theorem slot_write_outside (mem : Memory) (packet : Packet) (slot a : Nat)
    (h : a < slot ∨ slot + 64 ≤ a) :
    store32 (memcpy mem (slot + 4) (payload packet)) slot (slot_data packet 0) a = mem a := by
  have hr : ¬ (slot ≤ a ∧ a < slot + 4) := by omega
  have hm : ¬ (slot + 4 ≤ a ∧ a < slot + 4 + (payload packet).length) := by
    rw [payload_length]; omega
  simp only [store32, hr, if_false, memcpy, hm]

theorem queue_slot_exact (queue : hsa_queue_t) (hpos : queue.size ≠ 0)
    (hcap : queue.size ≤ 2 ^ 26) (haddr : queue.base_address + 64 * queue.size ≤ 2 ^ 64) :
    queue_slot queue = queue.base_address + (queue.write_index % queue.size) * 64 := by
  have hlt : queue.write_index % queue.size < queue.size :=
    Nat.mod_lt _ (Nat.pos_of_ne_zero hpos)
  simp only [queue_slot]
  generalize queue.write_index % queue.size = r at hlt
  norm_num at hcap haddr ⊢
  omega

/-! ## Order of the writes -/

theorem getElem?_append_three {α : Type} (pre : List α) (x y z e : α) (j : Nat)
    (h : (pre ++ [x, y, z])[j]? = some e) :
    (j < pre.length ∧ e ∈ pre) ∨ (j = pre.length ∧ e = x) ∨ (j = pre.length + 1 ∧ e = y) ∨
      (j = pre.length + 2 ∧ e = z) := by
  by_cases hj : j < pre.length
  · rw [List.getElem?_append_left hj] at h
    exact Or.inl ⟨hj, List.getElem?_mem h⟩
  · rw [List.getElem?_append_right (by omega)] at h
    right
    obtain ⟨d, hd⟩ : ∃ d, j - pre.length = d := ⟨_, rfl⟩
    rw [hd] at h
    match d, hd, h with
    | 0, hd, h => exact Or.inl ⟨by omega, by simpa using h.symm⟩
    | 1, hd, h => exact Or.inr (Or.inl ⟨by omega, by simpa using h.symm⟩)
    | 2, hd, h => exact Or.inr (Or.inr ⟨by omega, by simpa using h.symm⟩)
    | d + 3, hd, h => simp at h

theorem Submit_trace_split (queue : hsa_queue_t) (mem : Memory) (packet : Packet)
    (rd : Nat → Nat) (fuel : Nat) (hret : (Submit queue mem packet rd fuel).ret ≠ none) :
    ∃ pre : List Access, (∀ e, e ∈ pre → ∀ a, e.writes a = false) ∧
      (Submit queue mem packet rd fuel).trace =
        pre ++ [Access.memcpy (queue_slot queue + 4) (payload packet),
                Access.store_release (queue_slot queue) (slot_data packet 0),
                Access.signal_store queue.write_index] := by
  have hexit := (Submit_ret_iff queue mem packet rd fuel).1 hret
  refine ⟨Access.store_write_index ((queue.write_index + 1) % 2 ^ 64) ::
    (waitLoop queue.write_index queue.size rd fuel 0).1, ?_, ?_⟩
  · intro e he a
    rcases List.mem_cons.1 he with rfl | he
    · rfl
    · rcases waitLoop_mem _ _ _ _ _ _ hexit he with ⟨v, rfl⟩ | rfl
      · rfl
      · rfl
  · rw [Submit_of_exit queue mem packet rd fuel hexit]

/-! ## Statements on `Submit` -/

/-- C1: as soon as some load of the read index lets the wait loop end, `Submit`
returns the write index `W` found at entry, leaves the write index at `W + 1`
(the `uint64_t` sum, which is `W + 1` unless `W` is the largest 64-bit value)
and stores `W`, and nothing but `W`, to the doorbell signal; a call that
returns never returns anything but `W`; and consecutive calls on a queue whose
write index starts at 0, each let through by the consumer, return
`0, 1, ..., N-1` in that order. -/
theorem Submit_returns_write_index :
    (∀ (queue : hsa_queue_t) (mem : Memory) (packet : Packet) (rd : Nat → Nat) (k fuel : Nat),
      u64_sub queue.write_index (rd k) < queue.size → k < fuel →
        (Submit queue mem packet rd fuel).ret = some queue.write_index ∧
        (Submit queue mem packet rd fuel).queue.write_index
          = (queue.write_index + 1) % 2 ^ 64 ∧
        (queue.write_index + 1 < 2 ^ 64 →
          (Submit queue mem packet rd fuel).queue.write_index = queue.write_index + 1) ∧
        (Submit queue mem packet rd fuel).queue.doorbell_signal = queue.write_index ∧
        (∀ v, Access.signal_store v ∈ (Submit queue mem packet rd fuel).trace ↔
          v = queue.write_index)) ∧
    (∀ (queue : hsa_queue_t) (mem : Memory) (packet : Packet) (rd : Nat → Nat) (fuel r : Nat),
      (Submit queue mem packet rd fuel).ret = some r → r = queue.write_index) ∧
    (∀ (queue : hsa_queue_t) (mem : Memory) (packets : List Packet) (rds : Nat → Nat → Nat),
      queue.write_index = 0 → packets.length ≤ 2 ^ 64 →
      (∀ j, j < packets.length → ∃ k, u64_sub j (rds j k) < queue.size) →
      ∃ fuel0, ∀ fuel, fuel0 ≤ fuel → ∃ q m,
        SubmitSeq rds fuel 0 queue mem packets = some (List.range packets.length, q, m)) := by
  refine ⟨?_, ?_, ?_⟩
  · intro queue mem packet rd k fuel hk hfuel
    have hexit : (waitLoop queue.write_index queue.size rd fuel 0).2 = true :=
      waitLoop_exit _ _ _ k fuel 0 (by simpa using hk) hfuel
    have hS := Submit_of_exit queue mem packet rd fuel hexit
    refine ⟨by rw [hS], by rw [hS], ?_, by rw [hS], ?_⟩
    · intro hlt
      rw [hS]
      exact Nat.mod_eq_of_lt hlt
    · intro v
      rw [hS]
      constructor
      · intro hv
        simp only [List.mem_cons, List.mem_append, List.mem_singleton, reduceCtorEq,
          false_or, Access.signal_store.injEq] at hv
        rcases hv with hv | hv
        · rcases waitLoop_mem _ _ _ _ _ _ hexit hv with ⟨w, hw⟩ | hw
          · cases hw
          · cases hw
        · simpa using hv
      · intro hv
        subst hv
        simp
  · intro queue mem packet rd fuel r hr
    have hne : (Submit queue mem packet rd fuel).ret ≠ none := by rw [hr]; simp
    have hexit := (Submit_ret_iff queue mem packet rd fuel).1 hne
    rw [Submit_of_exit queue mem packet rd fuel hexit] at hr
    simpa using hr.symm
  · intro queue mem packets rds h0 hlen hk
    obtain ⟨b, hb⟩ := exists_uniform_bound
      (fun j k => u64_sub j (rds j k) < queue.size) packets.length hk
    refine ⟨b, ?_⟩
    intro fuel hfuel
    obtain ⟨q, m, hseq, _, _, _⟩ := SubmitSeq_range rds fuel packets 0 queue mem
      (by simpa using h0) (by omega)
      (by
        intro j hj
        obtain ⟨k, hkb, hP⟩ := hb j hj
        exact ⟨k, by omega, by simpa using hP⟩)
    exact ⟨q, m, by rw [hseq, List.range_eq_range']⟩

/-- Instance of C1: on the sample queue moved to write index 3, with the read
index at 0, the call returns 3, leaves the write index at 4 and rings the
doorbell with 3; three calls from write index 0 return 0, 1, 2. -/
theorem Submit_returns_write_index_witness :
    ((Submit { sampleQueue with write_index := 3 } zeroMemory samplePacket (fun _ => 0) 1).ret
        = some 3 ∧
      (Submit { sampleQueue with write_index := 3 } zeroMemory samplePacket
        (fun _ => 0) 1).queue.write_index = 4 ∧
      (Submit { sampleQueue with write_index := 3 } zeroMemory samplePacket
        (fun _ => 0) 1).queue.doorbell_signal = 3) ∧
    (∃ fuel0, ∀ fuel, fuel0 ≤ fuel → ∃ q m,
      SubmitSeq (fun _ _ => 0) fuel 0 sampleQueue zeroMemory
        [samplePacket, samplePacket, samplePacket] = some ([0, 1, 2], q, m)) := by
  have h := Submit_returns_write_index.1 { sampleQueue with write_index := 3 } zeroMemory
    samplePacket (fun _ => 0) 0 1 (by decide) (by decide)
  refine ⟨⟨h.1, ?_, h.2.2.2.1⟩, ?_⟩
  · exact h.2.2.1 (by decide)
  · exact Submit_returns_write_index.2.2 sampleQueue zeroMemory
      [samplePacket, samplePacket, samplePacket] (fun _ _ => 0) rfl (by decide)
      (by intro j hj; exact ⟨0, by simp only [List.length] at hj; interval_cases j <;> decide⟩)

/-- C4: backpressure.  A call that has gone past the wait loop did so on a
load of the read index with `W - read_index < C` (in `uint64_t` arithmetic),
after yielding once for every earlier load, each of which saw
`W - read_index ≥ C`; the store of `W + 1` to the write index is the first
action of the call.  As long as every load sees `W - read_index ≥ C` the call
yields, does not return and writes no memory, the write index being advanced
already.  On a queue of capacity 8 with the read index at 0, eight calls
return `0..7`, each on its first load; the ninth does not return while the read
index stays 0 and returns 8 on the first load that sees the read index 1. -/
theorem Submit_backpressure :
    (∀ (queue : hsa_queue_t) (mem : Memory) (packet : Packet) (rd : Nat → Nat) (fuel : Nat),
      (Submit queue mem packet rd fuel).ret ≠ none →
      ∃ n, n < fuel ∧ u64_sub queue.write_index (rd n) < queue.size ∧
        (∀ j, j < n → queue.size ≤ u64_sub queue.write_index (rd j)) ∧
        (Submit queue mem packet rd fuel).trace =
          Access.store_write_index ((queue.write_index + 1) % 2 ^ 64) :: spinLog rd 0 n ++
            [Access.load_read_index (rd n),
              Access.memcpy (queue_slot queue + 4) (payload packet),
              Access.store_release (queue_slot queue) (slot_data packet 0),
              Access.signal_store queue.write_index]) ∧
    (∀ (queue : hsa_queue_t) (mem : Memory) (packet : Packet) (rd : Nat → Nat) (fuel : Nat),
      (∀ j, j < fuel → queue.size ≤ u64_sub queue.write_index (rd j)) →
      (Submit queue mem packet rd fuel).ret = none ∧
      (Submit queue mem packet rd fuel).queue.write_index = (queue.write_index + 1) % 2 ^ 64 ∧
      (Submit queue mem packet rd fuel).mem = mem ∧
      (Submit queue mem packet rd fuel).trace =
        Access.store_write_index ((queue.write_index + 1) % 2 ^ 64) :: spinLog rd 0 fuel) ∧
    (∀ (queue : hsa_queue_t) (mem : Memory) (packets : List Packet),
      queue.size = 8 → queue.write_index = 0 → packets.length = 8 →
      ∃ q m, SubmitSeq (fun _ _ => 0) 1 0 queue mem packets
            = some ([0, 1, 2, 3, 4, 5, 6, 7], q, m) ∧
        q.size = 8 ∧ q.write_index = 8 ∧
        (∀ (packet : Packet) (fuel : Nat), (Submit q m packet (fun _ => 0) fuel).ret = none) ∧
        (∀ (packet : Packet) (n : Nat),
          (Submit q m packet (fun k => if k < n then 0 else 1) (n + 1)).ret = some 8 ∧
          ∀ fuel, fuel ≤ n →
            (Submit q m packet (fun k => if k < n then 0 else 1) fuel).ret = none)) := by
  refine ⟨?_, ?_, ?_⟩
  · intro queue mem packet rd fuel hret
    have hexit := (Submit_ret_iff queue mem packet rd fuel).1 hret
    obtain ⟨n, hn, hlt, hex, hlog⟩ := waitLoop_true _ _ rd fuel 0 hexit
    refine ⟨n, hn, by simpa using hex, fun j hj => by simpa using hlt j hj, ?_⟩
    rw [Submit_of_exit queue mem packet rd fuel hexit, hlog]
    simp
  · intro queue mem packet rd fuel hspin
    have hw := waitLoop_spin queue.write_index queue.size rd fuel 0
      (fun j hj => by simpa using hspin j hj)
    have hS := Submit_of_spin queue mem packet rd fuel (by rw [hw])
    refine ⟨by rw [hS], by rw [hS], by rw [hS], ?_⟩
    rw [hS, hw]
  · intro queue mem packets hsize hw hlen
    obtain ⟨q, m, hseq, hq1, hq2, _⟩ := SubmitSeq_range (fun _ _ => 0) 1 packets 0 queue mem
      (by simpa using hw) (by omega)
      (by
        intro j hj
        refine ⟨0, by omega, ?_⟩
        rw [hsize]
        simp only [u64_sub]
        omega)
    rw [hlen] at hseq hq1
    have hq8 : q.write_index = 8 := by rw [hq1]; decide
    have hqs : q.size = 8 := by rw [hq2, hsize]
    refine ⟨q, m, hseq, hqs, hq8, ?_, ?_⟩
    · intro packet fuel
      have hw := waitLoop_spin q.write_index q.size (fun _ => 0) fuel 0
        (fun j _ => by rw [hq8, hqs]; show 8 ≤ u64_sub 8 0; decide)
      rw [Submit_of_spin q m packet _ fuel (by rw [hw])]
    · intro packet n
      constructor
      · have hexit := waitLoop_exit q.write_index q.size (fun k => if k < n then 0 else 1)
          n (n + 1) 0 (by rw [hq8, hqs]; simp [u64_sub]) (by omega)
        rw [Submit_of_exit q m packet _ (n + 1) hexit, hq8]
      · intro fuel hfuel
        have hw := waitLoop_spin q.write_index q.size (fun k => if k < n then 0 else 1) fuel 0
          (fun j hj => by
            have hjn : j < n := by omega
            rw [hq8, hqs]
            simp [u64_sub, hjn])
        rw [Submit_of_spin q m packet _ fuel (by rw [hw])]

/-- Instance of C4: on the sample queue at write index 8 the call is still
yielding after three loads that see the read index 0, and on the stream
`0, 0, 1, ...` it returns 8 on the third load. -/
theorem Submit_backpressure_witness :
    ((Submit { sampleQueue with write_index := 8 } zeroMemory samplePacket (fun _ => 0) 3).ret
        = none ∧
      (Submit { sampleQueue with write_index := 8 } zeroMemory samplePacket
        (fun _ => 0) 3).queue.write_index = 9) ∧
    (∃ n, n < 3 ∧ u64_sub 8 (if n < 2 then 0 else 1) < 8 ∧
      ∀ j, j < n → 8 ≤ u64_sub 8 (if j < 2 then 0 else 1)) := by
  have hb := Submit_backpressure.2.1 { sampleQueue with write_index := 8 } zeroMemory
    samplePacket (fun _ => 0) 3 (by intro j _; show 8 ≤ u64_sub 8 0; decide)
  have ha := Submit_backpressure.1 { sampleQueue with write_index := 8 } zeroMemory
    samplePacket (fun k => if k < 2 then 0 else 1) 3 (by decide)
  refine ⟨⟨hb.1, hb.2.1⟩, ?_⟩
  obtain ⟨n, hn, hex, hlt, _⟩ := ha
  exact ⟨n, hn, hex, hlt⟩

/-- C2 (amended): once `Submit` has returned, the 64 bytes of storage that
start at `queue_slot`, the address the code computes with a 32-bit product,
are the 64 bytes of the packet, and every byte outside these 64 is unchanged.
The capacity is then not zero.  When the capacity is at most `2^26` and the
storage `base_address .. base_address + 64 * C` lies in the 64-bit address
space, `queue_slot` is `base_address + (W mod C) * 64`, so the claim holds
with that offset. -/
theorem Submit_writes_slot (queue : hsa_queue_t) (mem : Memory) (packet : Packet)
    (rd : Nat → Nat) (fuel : Nat) (hret : (Submit queue mem packet rd fuel).ret ≠ none) :
    queue.size ≠ 0 ∧
    (∀ i, i < 64 → (Submit queue mem packet rd fuel).mem (queue_slot queue + i) = packet i) ∧
    (∀ a, a < queue_slot queue ∨ queue_slot queue + 64 ≤ a →
      (Submit queue mem packet rd fuel).mem a = mem a) ∧
    (queue.size ≤ 2 ^ 26 → queue.base_address + 64 * queue.size ≤ 2 ^ 64 →
      (∀ i, i < 64 →
        (Submit queue mem packet rd fuel).mem
          (queue.base_address + (queue.write_index % queue.size) * 64 + i) = packet i) ∧
      (∀ a, a < queue.base_address + (queue.write_index % queue.size) * 64 ∨
          queue.base_address + (queue.write_index % queue.size) * 64 + 64 ≤ a →
        (Submit queue mem packet rd fuel).mem a = mem a)) := by
  have hexit := (Submit_ret_iff queue mem packet rd fuel).1 hret
  obtain ⟨n, _, _, hex, _⟩ := waitLoop_true _ _ rd fuel 0 hexit
  have hpos : queue.size ≠ 0 := by omega
  have hS := Submit_of_exit queue mem packet rd fuel hexit
  have hin : ∀ i, i < 64 →
      (Submit queue mem packet rd fuel).mem (queue_slot queue + i) = packet i := by
    intro i hi
    rw [hS]
    exact slot_write_inside mem packet (queue_slot queue) i hi
  have hout : ∀ a, a < queue_slot queue ∨ queue_slot queue + 64 ≤ a →
      (Submit queue mem packet rd fuel).mem a = mem a := by
    intro a ha
    rw [hS]
    exact slot_write_outside mem packet (queue_slot queue) a ha
  refine ⟨hpos, hin, hout, ?_⟩
  intro hcap haddr
  rw [← queue_slot_exact queue hpos hcap haddr]
  exact ⟨hin, hout⟩

/-- Instance of C2 (amended): the sample queue at write index 11 returns and
holds byte 5 of the packet at offset `(11 mod 8) * 64 + 5`. -/
theorem Submit_writes_slot_witness :
    (Submit { sampleQueue with write_index := 11 } zeroMemory samplePacket (fun _ => 4) 1).mem
      (0x1000 + (11 % 8) * 64 + 5) = samplePacket 5 :=
  ((Submit_writes_slot { sampleQueue with write_index := 11 } zeroMemory samplePacket
    (fun _ => 4) 1 (by decide)).2.2.2 (by decide) (by decide)).1 5 (by decide)

/-- C2 as stated fails: with capacity `2^27` and write index `2^26` the call
returns, the bytes at offset `(W mod C) * 64 = 2^32` are not the packet, and a
byte at offset 5, outside that slot, has changed. -/
theorem Submit_slot_offset_wraps :
    (Submit ⟨0x1000, 0, 2 ^ 27, 2 ^ 26⟩ zeroMemory samplePacket (fun _ => 0) 1).ret
        = some (2 ^ 26) ∧
    ¬ (∀ i, i < 64 →
        (Submit ⟨0x1000, 0, 2 ^ 27, 2 ^ 26⟩ zeroMemory samplePacket (fun _ => 0) 1).mem
          (0x1000 + (2 ^ 26 % 2 ^ 27) * 64 + i) = samplePacket i) ∧
    ¬ (∀ a, a < 0x1000 + (2 ^ 26 % 2 ^ 27) * 64 ∨ 0x1000 + (2 ^ 26 % 2 ^ 27) * 64 + 64 ≤ a →
        (Submit ⟨0x1000, 0, 2 ^ 27, 2 ^ 26⟩ zeroMemory samplePacket (fun _ => 0) 1).mem a
          = zeroMemory a) := by
  refine ⟨by decide, ?_, ?_⟩
  · intro h
    exact absurd (h 5 (by decide)) (by decide)
  · intro h
    exact absurd (h (0x1000 + 5) (Or.inl (by decide))) (by decide)

/-! ## Replaying the log -/

theorem effect_of_not_writes (e : Access) (m : Memory) (a : Nat) (h : e.writes a = false) :
    e.effect m a = m a := by
  cases e with
  | memcpy dst src =>
    simp only [Access.writes, decide_eq_false_iff_not] at h
    simp only [Access.effect, memcpy, h, if_false]
  | store_release addr word =>
    simp only [Access.writes, decide_eq_false_iff_not] at h
    simp only [Access.effect, store32, h, if_false]
  | store_write_index v => rfl
  | load_read_index v => rfl
  | sched_yield => rfl
  | signal_store v => rfl

theorem effect_of_writes (e : Access) (m m' : Memory) (a : Nat) (h : e.writes a = true) :
    e.effect m a = e.effect m' a := by
  cases e with
  | memcpy dst src =>
    simp only [Access.writes, decide_eq_true_eq] at h
    have hlt : a - dst < src.length := by omega
    simp only [Access.effect, memcpy, h, and_self, if_true, List.getD_eq_getElem?_getD,
      List.getElem?_eq_getElem hlt, Option.getD_some]
  | store_release addr word =>
    simp only [Access.writes, decide_eq_true_eq] at h
    simp only [Access.effect, store32, h, and_self, if_true]
  | store_write_index v => cases h
  | load_read_index v => cases h
  | sched_yield => cases h
  | signal_store v => cases h

theorem replay_append (l1 l2 : List Access) (m : Memory) :
    replay (l1 ++ l2) m = replay l2 (replay l1 m) := by
  simp [replay, List.foldl_append]

theorem replay_silent (l : List Access) (m : Memory)
    (h : ∀ e, e ∈ l → ∀ a, e.writes a = false) : replay l m = m := by
  induction l generalizing m with
  | nil => rfl
  | cons e rest ih =>
    have he : e.effect m = m :=
      funext fun a => effect_of_not_writes e m a (h e (List.mem_cons_self e rest) a)
    show replay rest (e.effect m) = m
    rw [he]
    exact ih m (fun x hx => h x (List.mem_cons_of_mem e hx))

theorem replay_take_silent (pre post : List Access) (m : Memory) (j : Nat)
    (h : ∀ e, e ∈ pre → ∀ a, e.writes a = false) (hj : j ≤ pre.length) :
    replay ((pre ++ post).take j) m = m := by
  rw [List.take_append_of_le_length hj]
  exact replay_silent _ m (fun e he => h e (List.mem_of_mem_take he))

theorem replay_take_after (pre post : List Access) (m : Memory) (k : Nat)
    (h : ∀ e, e ∈ pre → ∀ a, e.writes a = false) :
    replay ((pre ++ post).take (pre.length + k)) m = replay (post.take k) m := by
  rw [List.take_append, replay_append, replay_silent pre m h]

/-- C3: in the log of a `Submit` call that returns there is one position `h`
holding the release store of the header word at `queue_slot`; each of the slot
bytes `4..63` is written at a position strictly before `h`; no other position
writes any of the slot bytes `0..3`; no position after `h` writes any byte of
the slot; and the word stored is the first word of the packet, its four bytes
being bytes `0..3` of the packet.  The log is the sequence of writes that
produces the memory the call leaves: performing its actions in order gives
that memory; as long as at most `h` actions have been performed the slot bytes
`0..3` are those found at entry; when exactly `h` have been performed the slot
bytes `4..63` are already those of the packet; and once more than `h` have
been performed all 64 slot bytes are those of the packet.  An action changes
no byte it is not recorded as writing, and the byte it writes does not depend
on the memory before it. -/
theorem Submit_header_last (queue : hsa_queue_t) (mem : Memory) (packet : Packet)
    (rd : Nat → Nat) (fuel : Nat) (hret : (Submit queue mem packet rd fuel).ret ≠ none) :
    ∃ h : Nat, (Submit queue mem packet rd fuel).trace[h]?
        = some (Access.store_release (queue_slot queue) (slot_data packet 0)) ∧
      (∀ i, 4 ≤ i → i < 64 → ∃ (j : Nat) (e : Access), j < h ∧
        (Submit queue mem packet rd fuel).trace[j]? = some e ∧
        e.writes (queue_slot queue + i) = true) ∧
      (∀ (j : Nat) (e : Access) (i : Nat),
        (Submit queue mem packet rd fuel).trace[j]? = some e → i < 4 →
        e.writes (queue_slot queue + i) = true → j = h) ∧
      (∀ (j : Nat) (e : Access) (i : Nat), h < j →
        (Submit queue mem packet rd fuel).trace[j]? = some e → i < 64 →
        e.writes (queue_slot queue + i) = false) ∧
      (∀ i, i < 4 → wordByte (slot_data packet 0) i = packet i) ∧
      (Submit queue mem packet rd fuel).mem
        = replay (Submit queue mem packet rd fuel).trace mem ∧
      (∀ j, j ≤ h → ∀ i, i < 4 →
        replay ((Submit queue mem packet rd fuel).trace.take j) mem (queue_slot queue + i)
          = mem (queue_slot queue + i)) ∧
      (∀ i, 4 ≤ i → i < 64 →
        replay ((Submit queue mem packet rd fuel).trace.take h) mem (queue_slot queue + i)
          = packet i) ∧
      (∀ j, h < j → ∀ i, i < 64 →
        replay ((Submit queue mem packet rd fuel).trace.take j) mem (queue_slot queue + i)
          = packet i) ∧
      (∀ (e : Access) (m : Memory) (a : Nat), e.writes a = false → e.effect m a = m a) ∧
      (∀ (e : Access) (m m' : Memory) (a : Nat), e.writes a = true →
        e.effect m a = e.effect m' a) := by
  obtain ⟨pre, hpre, htrace⟩ := Submit_trace_split queue mem packet rd fuel hret
  have hexit := (Submit_ret_iff queue mem packet rd fuel).1 hret
  have hmem : (Submit queue mem packet rd fuel).mem =
      store32 (memcpy mem (queue_slot queue + 4) (payload packet)) (queue_slot queue)
        (slot_data packet 0) := by
    rw [Submit_of_exit queue mem packet rd fuel hexit]
  refine ⟨pre.length + 1, ?_, ?_, ?_, ?_, ?_, ?_, ?_, ?_, ?_, effect_of_not_writes,
    effect_of_writes⟩
  · rw [htrace, List.getElem?_append_right (by omega)]
    simp
  · intro i h4 h64
    refine ⟨pre.length, Access.memcpy (queue_slot queue + 4) (payload packet), by omega, ?_, ?_⟩
    · rw [htrace, List.getElem?_append_right (by omega)]
      simp
    · simp only [Access.writes, payload_length, decide_eq_true_eq]
      omega
  · intro j e i hj hi hw
    rw [htrace] at hj
    rcases getElem?_append_three pre _ _ _ e j hj with ⟨_, he⟩ | ⟨_, rfl⟩ | ⟨hj', _⟩ | ⟨_, rfl⟩
    · rw [hpre e he] at hw; cases hw
    · simp only [Access.writes, payload_length, decide_eq_true_eq] at hw
      omega
    · exact hj'
    · cases hw
  · intro j e i hlt hj hi
    rw [htrace] at hj
    rcases getElem?_append_three pre _ _ _ e j hj with ⟨hj', _⟩ | ⟨hj', _⟩ | ⟨hj', _⟩ | ⟨_, rfl⟩
    · omega
    · omega
    · omega
    · rfl
  · intro i hi
    exact wordByte_slot_data packet i hi
  · rw [hmem, htrace, replay_append, replay_silent pre mem hpre]
    rfl
  · intro j hj i hi
    rw [htrace]
    by_cases hjp : j ≤ pre.length
    · rw [replay_take_silent pre _ mem j hpre hjp]
    · have hj1 : j = pre.length + 1 := by omega
      rw [hj1, replay_take_after pre _ mem 1 hpre]
      show memcpy mem (queue_slot queue + 4) (payload packet) (queue_slot queue + i)
        = mem (queue_slot queue + i)
      have hm : ¬ (queue_slot queue + 4 ≤ queue_slot queue + i ∧
          queue_slot queue + i < queue_slot queue + 4 + (payload packet).length) := by omega
      simp only [memcpy, hm, if_false]
  · intro i h4 h64
    rw [htrace, replay_take_after pre _ mem 1 hpre]
    show memcpy mem (queue_slot queue + 4) (payload packet) (queue_slot queue + i) = packet i
    have hm : queue_slot queue + 4 ≤ queue_slot queue + i ∧
        queue_slot queue + i < queue_slot queue + 4 + (payload packet).length := by
      rw [payload_length]; omega
    simp only [memcpy, hm, and_self, if_true]
    rw [show queue_slot queue + i - (queue_slot queue + 4) = i - 4 by omega,
      payload_getD packet (i - 4) _ (by omega)]
    congr 1
    omega
  · intro j hj i hi
    obtain ⟨k, hk⟩ : ∃ k, j = pre.length + (k + 2) := ⟨j - pre.length - 2, by omega⟩
    rw [htrace, hk, replay_take_after pre _ mem (k + 2) hpre]
    have hrep : replay ([Access.memcpy (queue_slot queue + 4) (payload packet),
        Access.store_release (queue_slot queue) (slot_data packet 0),
        Access.signal_store queue.write_index].take (k + 2)) mem =
        store32 (memcpy mem (queue_slot queue + 4) (payload packet)) (queue_slot queue)
          (slot_data packet 0) := by
      cases k with
      | zero => rfl
      | succ k =>
        simp only [List.take_succ_cons, List.take_nil]
        rfl
    rw [hrep]
    exact slot_write_inside mem packet (queue_slot queue) i hi

/-- Instance of C3: in the log of the sample queue at write index 3 the
release store of the header is entry 3, after the copy of the payload: when it
is made, byte 63 of the slot holds byte 63 of the packet and byte 0 of the
slot is still the zero byte found at entry; after it byte 0 of the slot is
byte 0 of the packet. -/
theorem Submit_header_last_witness :
    ∃ h : Nat, (Submit { sampleQueue with write_index := 3 } zeroMemory samplePacket
        (fun _ => 0) 1).trace[h]?
        = some (Access.store_release (0x1000 + 3 * 64) (slot_data samplePacket 0)) ∧
      (∃ (j : Nat) (e : Access), j < h ∧
        (Submit { sampleQueue with write_index := 3 } zeroMemory samplePacket
          (fun _ => 0) 1).trace[j]? = some e ∧
        e.writes (0x1000 + 3 * 64 + 63) = true) ∧
      replay ((Submit { sampleQueue with write_index := 3 } zeroMemory samplePacket
          (fun _ => 0) 1).trace.take h) zeroMemory (0x1000 + 3 * 64 + 63) = samplePacket 63 ∧
      replay ((Submit { sampleQueue with write_index := 3 } zeroMemory samplePacket
          (fun _ => 0) 1).trace.take h) zeroMemory (0x1000 + 3 * 64 + 0)
        = zeroMemory (0x1000 + 3 * 64 + 0) ∧
      replay ((Submit { sampleQueue with write_index := 3 } zeroMemory samplePacket
          (fun _ => 0) 1).trace.take (h + 1)) zeroMemory (0x1000 + 3 * 64 + 0)
        = samplePacket 0 := by
  obtain ⟨h, h1, h2, _, _, _, _, h7, h8, h9, _⟩ :=
    Submit_header_last { sampleQueue with write_index := 3 } zeroMemory
    samplePacket (fun _ => 0) 1 (by decide)
  exact ⟨h, h1, h2 63 (by decide) (by decide), h8 63 (by decide) (by decide),
    h7 h (Nat.le_refl h) 0 (by decide), h9 (h + 1) (Nat.lt_succ_self h) 0 (by decide)⟩

/-! ## Page rounding -/

theorem and_not_mask (x k : Nat) (hx : x < 2 ^ 64) (hk : k ≤ 64) :
    x &&& (2 ^ 64 - 1 - (2 ^ k - 1)) = x / 2 ^ k * 2 ^ k := by
  have hpow : 2 ^ k ≤ 2 ^ 64 := Nat.pow_le_pow_right (by norm_num) hk
  have hpos : 0 < 2 ^ k := Nat.pos_pow_of_pos k (by norm_num)
  have hm : 2 ^ 64 - 1 - (2 ^ k - 1) = 2 ^ 64 - ((2 ^ k - 1) + 1) := by
    generalize 2 ^ k = P at hpow hpos
    omega
  have hlt : 2 ^ k - 1 < 2 ^ 64 := by
    generalize 2 ^ k = P at hpow hpos
    omega
  rw [hm]
  apply Nat.eq_of_testBit_eq
  intro i
  rw [Nat.testBit_and, Nat.testBit_two_pow_sub_succ hlt, Nat.testBit_two_pow_sub_one,
    ← Nat.shiftRight_eq_div_pow, ← Nat.shiftLeft_eq, Nat.testBit_shiftLeft,
    Nat.testBit_shiftRight]
  by_cases h1 : i < k
  · have h3 : ¬ (i ≥ k) := by omega
    simp [h1, h3]
  · have h3 : i ≥ k := by omega
    by_cases h2 : i < 64
    · simp [h1, h2, h3, show k + (i - k) = i by omega]
    · have hxi : x.testBit i = false :=
        Nat.testBit_lt_two_pow
          (lt_of_lt_of_le hx (Nat.pow_le_pow_right (by norm_num) (by omega)))
      simp [h2, hxi, show k + (i - k) = i by omega]

theorem round_with_eq (k n : Nat) (hk : k ≤ 64) :
    round_with (2 ^ k - 1) n = (n + (2 ^ k - 1)) % 2 ^ 64 / 2 ^ k * 2 ^ k := by
  unfold round_with
  exact and_not_mask _ k (Nat.mod_lt _ (by norm_num)) hk

theorem round_with_mod (k n : Nat) (hk : k ≤ 64) : round_with (2 ^ k - 1) n % 2 ^ k = 0 := by
  rw [round_with_eq k n hk]
  exact Nat.mul_mod_left _ _

theorem round_with_idem (k n : Nat) (hk : k ≤ 64) :
    round_with (2 ^ k - 1) (round_with (2 ^ k - 1) n) = round_with (2 ^ k - 1) n := by
  have hpos : 0 < 2 ^ k := Nat.pos_pow_of_pos k (by norm_num)
  have hsplit : (2 : Nat) ^ 64 = 2 ^ k * 2 ^ (64 - k) := by
    rw [← Nat.pow_add]; congr 1; omega
  rw [round_with_eq k (round_with (2 ^ k - 1) n) hk, round_with_eq k n hk]
  set y := (n + (2 ^ k - 1)) % 2 ^ 64 with hy
  have hylt : y < 2 ^ k * 2 ^ (64 - k) := by
    rw [← hsplit]; exact Nat.mod_lt _ (by norm_num)
  have hq : y / 2 ^ k < 2 ^ (64 - k) := Nat.div_lt_of_lt_mul hylt
  have hle : (y / 2 ^ k + 1) * 2 ^ k ≤ 2 ^ (64 - k) * 2 ^ k :=
    Nat.mul_le_mul_right _ hq
  have hsmall : y / 2 ^ k * 2 ^ k + (2 ^ k - 1) < 2 ^ 64 := by
    rw [hsplit, Nat.mul_comm (2 ^ k) (2 ^ (64 - k))]
    rw [Nat.add_mul, Nat.one_mul] at hle
    omega
  rw [Nat.mod_eq_of_lt hsmall]
  congr 1
  rw [Nat.add_comm, Nat.add_mul_div_right _ _ hpos, Nat.div_eq_of_lt (by omega), Nat.zero_add]

theorem mem_page_round_eq (n : Nat) :
    mem_page_round n = (n + 4095) % 2 ^ 64 / 4096 * 4096 := by
  have h := round_with_eq 12 n (by norm_num)
  norm_num at h
  simpa [mem_page_round, MEM_PAGE_MASK] using h

/-! ## Allocation -/

theorem AllocateLocalMemory_eq (self : HsaRsrcFactory) (rt : HsaRuntime) (agent_info : AgentInfo)
    (size : Nat) :
    ((rt.hsa_amd_memory_pool_allocate agent_info.gpu_pool (mem_page_round size)).1
        ≠ HSA_STATUS_SUCCESS ∧
      AllocateLocalMemory self rt agent_info size =
        (NULL, [HsaCall.memory_pool_allocate agent_info.gpu_pool (mem_page_round size)], self)) ∨
    ((rt.hsa_amd_memory_pool_allocate agent_info.gpu_pool (mem_page_round size)).1
        = HSA_STATUS_SUCCESS ∧
      AllocateLocalMemory self rt agent_info size =
        (if rt.hsa_amd_agents_allow_access [agent_info.dev_id]
              (rt.hsa_amd_memory_pool_allocate agent_info.gpu_pool (mem_page_round size)).2
            = HSA_STATUS_SUCCESS
          then (rt.hsa_amd_memory_pool_allocate agent_info.gpu_pool (mem_page_round size)).2
          else NULL,
         [HsaCall.memory_pool_allocate agent_info.gpu_pool (mem_page_round size),
          HsaCall.agents_allow_access [agent_info.dev_id]
            (rt.hsa_amd_memory_pool_allocate agent_info.gpu_pool (mem_page_round size)).2],
         self)) := by
  by_cases h : (rt.hsa_amd_memory_pool_allocate agent_info.gpu_pool (mem_page_round size)).1
      = HSA_STATUS_SUCCESS
  · right
    exact ⟨h, by simp [AllocateLocalMemory, h]⟩
  · left
    exact ⟨h, by simp [AllocateLocalMemory, h]⟩

theorem allocateHostMemory_eq (pool_of : AgentInfo → hsa_amd_memory_pool_t)
    (self : HsaRsrcFactory) (rt : HsaRuntime) (agent_info : AgentInfo) (size : Nat)
    (cpu0 : AgentInfo) (rest : List AgentInfo) (hlist : self.cpu_list_ = cpu0 :: rest)
    (hne : self.cpu_agents_ ≠ []) :
    ((rt.hsa_amd_memory_pool_allocate (pool_of cpu0) (mem_page_round size)).1
        ≠ HSA_STATUS_SUCCESS ∧
      allocateHostMemory pool_of self rt agent_info size =
        some (NULL, [HsaCall.memory_pool_allocate (pool_of cpu0) (mem_page_round size)],
          self)) ∨
    ((rt.hsa_amd_memory_pool_allocate (pool_of cpu0) (mem_page_round size)).1
        = HSA_STATUS_SUCCESS ∧
      allocateHostMemory pool_of self rt agent_info size =
        some (if rt.hsa_amd_agents_allow_access (self.cpu_agents_ ++ [agent_info.dev_id])
              (rt.hsa_amd_memory_pool_allocate (pool_of cpu0) (mem_page_round size)).2
            = HSA_STATUS_SUCCESS
          then (rt.hsa_amd_memory_pool_allocate (pool_of cpu0) (mem_page_round size)).2
          else NULL,
         [HsaCall.memory_pool_allocate (pool_of cpu0) (mem_page_round size),
          HsaCall.agents_allow_access (self.cpu_agents_ ++ [agent_info.dev_id])
            (rt.hsa_amd_memory_pool_allocate (pool_of cpu0) (mem_page_round size)).2],
         self)) := by
  by_cases h : (rt.hsa_amd_memory_pool_allocate (pool_of cpu0) (mem_page_round size)).1
      = HSA_STATUS_SUCCESS
  · right
    exact ⟨h, by simp [allocateHostMemory, hlist, hne, h]⟩
  · left
    exact ⟨h, by simp [allocateHostMemory, hlist, hne, h]⟩

theorem allocateHostMemory_no_host (pool_of : AgentInfo → hsa_amd_memory_pool_t)
    (self : HsaRsrcFactory) (rt : HsaRuntime) (agent_info : AgentInfo) (size : Nat)
    (h : self.cpu_agents_ = []) :
    allocateHostMemory pool_of self rt agent_info size = some (NULL, [], self) := by
  simp [allocateHostMemory, h]

theorem AllocateLocalMemory_head (self : HsaRsrcFactory) (rt : HsaRuntime)
    (agent_info : AgentInfo) (size : Nat) :
    (AllocateLocalMemory self rt agent_info size).2.1.head?
      = some (HsaCall.memory_pool_allocate agent_info.gpu_pool (mem_page_round size)) := by
  rcases AllocateLocalMemory_eq self rt agent_info size with ⟨_, he⟩ | ⟨_, he⟩ <;> rw [he] <;> rfl

theorem allocateHostMemory_head (pool_of : AgentInfo → hsa_amd_memory_pool_t)
    (self : HsaRsrcFactory) (rt : HsaRuntime) (agent_info : AgentInfo) (size : Nat)
    (cpu0 : AgentInfo) (rest : List AgentInfo) (hlist : self.cpu_list_ = cpu0 :: rest)
    (hne : self.cpu_agents_ ≠ []) :
    ∃ r, allocateHostMemory pool_of self rt agent_info size = some r ∧
      r.2.1.head? = some (HsaCall.memory_pool_allocate (pool_of cpu0) (mem_page_round size)) := by
  rcases allocateHostMemory_eq pool_of self rt agent_info size cpu0 rest hlist hne with
    ⟨_, he⟩ | ⟨_, he⟩ <;> exact ⟨_, he, rfl⟩

theorem AllocateLocalMemory_catalog (self : HsaRsrcFactory) (rt : HsaRuntime)
    (agent_info : AgentInfo) (size : Nat) :
    (AllocateLocalMemory self rt agent_info size).2.2 = self := by
  rcases AllocateLocalMemory_eq self rt agent_info size with ⟨_, he⟩ | ⟨_, he⟩ <;> rw [he]

theorem allocateHostMemory_catalog (pool_of : AgentInfo → hsa_amd_memory_pool_t)
    (self : HsaRsrcFactory) (rt : HsaRuntime) (agent_info : AgentInfo) (size : Nat)
    (r : Nat × List HsaCall × HsaRsrcFactory)
    (h : allocateHostMemory pool_of self rt agent_info size = some r) : r.2.2 = self := by
  by_cases hne : self.cpu_agents_ = []
  · rw [allocateHostMemory_no_host pool_of self rt agent_info size hne] at h
    cases h
    rfl
  · cases hlist : self.cpu_list_ with
    | nil => simp [allocateHostMemory, hlist, hne] at h
    | cons cpu0 rest =>
      rcases allocateHostMemory_eq pool_of self rt agent_info size cpu0 rest hlist hne with
        ⟨_, he⟩ | ⟨_, he⟩ <;>
      · rw [he] at h
        cases h
        rfl

/-- C5 (amended): for every requested size `n` with `n + MEM_PAGE_MASK` below
`2^64`, the rounded size is the least multiple of the page size 4096 at or
above `n`: it is at least `n`, exceeds `n` by less than a page, is a multiple
of the page size, and no multiple of the page size lies between `n` and it.
It is the size with which each of the three allocation functions calls the
pool allocator, as its first runtime call. -/
theorem mem_page_round_next_multiple (n : Nat) (h : n + MEM_PAGE_MASK < 2 ^ 64) :
    MEM_PAGE_MASK + 1 = 4096 ∧
    n ≤ mem_page_round n ∧ mem_page_round n - n < MEM_PAGE_MASK + 1 ∧
    mem_page_round n % (MEM_PAGE_MASK + 1) = 0 ∧
    (∀ m, n ≤ m → m % (MEM_PAGE_MASK + 1) = 0 → mem_page_round n ≤ m) ∧
    (∀ (self : HsaRsrcFactory) (rt : HsaRuntime) (agent_info : AgentInfo),
      (AllocateLocalMemory self rt agent_info n).2.1.head?
        = some (HsaCall.memory_pool_allocate agent_info.gpu_pool (mem_page_round n)) ∧
      ∀ (cpu0 : AgentInfo) (rest : List AgentInfo), self.cpu_list_ = cpu0 :: rest →
        self.cpu_agents_ ≠ [] →
        (∃ r, AllocateKernArgMemory self rt agent_info n = some r ∧ r.2.1.head?
          = some (HsaCall.memory_pool_allocate cpu0.kern_arg_pool (mem_page_round n))) ∧
        (∃ r, AllocateSysMemory self rt agent_info n = some r ∧ r.2.1.head?
          = some (HsaCall.memory_pool_allocate cpu0.cpu_pool (mem_page_round n)))) := by
  have hmask : MEM_PAGE_MASK + 1 = 4096 := by decide
  have hmask' : MEM_PAGE_MASK = 4095 := by decide
  rw [hmask'] at h
  have hr := mem_page_round_eq n
  rw [Nat.mod_eq_of_lt h] at hr
  rw [hmask]
  refine ⟨rfl, by omega, by omega, by omega, ?_, ?_⟩
  · intro m hm hmod
    omega
  · intro self rt agent_info
    refine ⟨AllocateLocalMemory_head self rt agent_info n, ?_⟩
    intro cpu0 rest hlist hne
    exact ⟨allocateHostMemory_head AgentInfo.kern_arg_pool self rt agent_info n cpu0 rest hlist hne,
      allocateHostMemory_head AgentInfo.cpu_pool self rt agent_info n cpu0 rest hlist hne⟩

/-- Instance of C5 (amended): a request of one byte is rounded to 4096. -/
theorem mem_page_round_next_multiple_witness :
    1 ≤ mem_page_round 1 ∧ mem_page_round 1 - 1 < MEM_PAGE_MASK + 1 ∧
      mem_page_round 1 % (MEM_PAGE_MASK + 1) = 0 :=
  ⟨(mem_page_round_next_multiple 1 (by decide)).2.1,
    (mem_page_round_next_multiple 1 (by decide)).2.2.1,
    (mem_page_round_next_multiple 1 (by decide)).2.2.2.1⟩

/-- C5 as stated fails: the request `2^64 - 1` is rounded to 0, which is below
the request, and 0 is the size `AllocateLocalMemory` passes to the pool
allocator. -/
theorem mem_page_round_wraps :
    2 ^ 64 - 1 < 2 ^ 64 ∧ mem_page_round (2 ^ 64 - 1) = 0 ∧
    ¬ (2 ^ 64 - 1 ≤ mem_page_round (2 ^ 64 - 1)) ∧
    (AllocateLocalMemory sampleFactory sampleRuntime sampleGpu (2 ^ 64 - 1)).2.1.head?
      = some (HsaCall.memory_pool_allocate 21 0) := by
  decide

/-- C6: for every page size `2^k` that a `size_t` mask can express and every
requested size `n`, the rounding `(n + mask) & ~mask` with `mask = 2^k - 1`
yields a multiple of the page size and is idempotent; this holds in particular
for `MEM_PAGE_MASK`, and the three allocation functions all call the pool
allocator with `mem_page_round n`. -/
theorem round_multiple_and_idempotent (k n : Nat) (hk : k ≤ 64) :
    round_with (2 ^ k - 1) n % 2 ^ k = 0 ∧
    round_with (2 ^ k - 1) (round_with (2 ^ k - 1) n) = round_with (2 ^ k - 1) n ∧
    MEM_PAGE_MASK = 2 ^ 12 - 1 ∧
    mem_page_round n % (MEM_PAGE_MASK + 1) = 0 ∧
    mem_page_round (mem_page_round n) = mem_page_round n ∧
    (∀ (self : HsaRsrcFactory) (rt : HsaRuntime) (agent_info : AgentInfo),
      (AllocateLocalMemory self rt agent_info n).2.1.head?
        = some (HsaCall.memory_pool_allocate agent_info.gpu_pool (mem_page_round n)) ∧
      ∀ (cpu0 : AgentInfo) (rest : List AgentInfo), self.cpu_list_ = cpu0 :: rest →
        self.cpu_agents_ ≠ [] →
        (∃ r, AllocateKernArgMemory self rt agent_info n = some r ∧ r.2.1.head?
          = some (HsaCall.memory_pool_allocate cpu0.kern_arg_pool (mem_page_round n))) ∧
        (∃ r, AllocateSysMemory self rt agent_info n = some r ∧ r.2.1.head?
          = some (HsaCall.memory_pool_allocate cpu0.cpu_pool (mem_page_round n)))) := by
  have hmask : MEM_PAGE_MASK = 2 ^ 12 - 1 := by decide
  refine ⟨round_with_mod k n hk, round_with_idem k n hk, hmask, ?_, ?_, ?_⟩
  · have h := round_with_mod 12 n (by norm_num)
    rw [← hmask] at h
    exact h
  · have h := round_with_idem 12 n (by norm_num)
    rw [← hmask] at h
    exact h
  · intro self rt agent_info
    refine ⟨AllocateLocalMemory_head self rt agent_info n, ?_⟩
    intro cpu0 rest hlist hne
    exact ⟨allocateHostMemory_head AgentInfo.kern_arg_pool self rt agent_info n cpu0 rest hlist hne,
      allocateHostMemory_head AgentInfo.cpu_pool self rt agent_info n cpu0 rest hlist hne⟩

/-- Instance of C6: with 16-byte pages the request 17 is rounded to 32, a
multiple of 16 that rounds to itself; and the largest `size_t` is rounded to
0 by `mem_page_round`, again a multiple that rounds to itself. -/
theorem round_multiple_and_idempotent_witness :
    (round_with (2 ^ 4 - 1) 17 % 2 ^ 4 = 0 ∧
      round_with (2 ^ 4 - 1) (round_with (2 ^ 4 - 1) 17) = round_with (2 ^ 4 - 1) 17) ∧
    mem_page_round (mem_page_round (2 ^ 64 - 1)) = mem_page_round (2 ^ 64 - 1) :=
  ⟨⟨(round_multiple_and_idempotent 4 17 (by decide)).1,
      (round_multiple_and_idempotent 4 17 (by decide)).2.1⟩,
    (round_multiple_and_idempotent 12 (2 ^ 64 - 1) (by decide)).2.2.2.2.1⟩

theorem allocateHostMemory_null_iff (pool_of : AgentInfo → hsa_amd_memory_pool_t)
    (self : HsaRsrcFactory) (rt : HsaRuntime) (agent_info : AgentInfo) (size : Nat)
    (hrt : ∀ pool sz, (rt.hsa_amd_memory_pool_allocate pool sz).1 = HSA_STATUS_SUCCESS →
      (rt.hsa_amd_memory_pool_allocate pool sz).2 ≠ NULL)
    (hwf : self.cpu_list_.length = self.cpu_agents_.length) :
    ∃ r, allocateHostMemory pool_of self rt agent_info size = some r ∧
      (r.1 = NULL ↔ self.cpu_agents_ = [] ∨ allocationFailed rt r.2.1 ∨ accessGrantFailed rt r.2.1) ∧
      (r.1 ≠ NULL → allocatedBuffer rt r.2.1 r.1) := by
  by_cases hne : self.cpu_agents_ = []
  · refine ⟨(NULL, [], self), allocateHostMemory_no_host pool_of self rt agent_info size hne, ?_, ?_⟩
    · simp [hne]
    · intro h; exact absurd rfl h
  · cases hlist : self.cpu_list_ with
    | nil =>
      rw [hlist] at hwf
      exact absurd (List.length_eq_zero.1 hwf.symm) hne
    | cons cpu0 rest =>
      rcases allocateHostMemory_eq pool_of self rt agent_info size cpu0 rest hlist hne with
        ⟨hst, he⟩ | ⟨hst, he⟩
      · refine ⟨_, he, ?_, ?_⟩
        · simp only [true_iff]
          exact Or.inr (Or.inl ⟨_, _, List.mem_singleton.2 rfl, hst⟩)
        · intro h; exact absurd rfl h
      · refine ⟨_, he, ?_, ?_⟩
        · by_cases hacc : rt.hsa_amd_agents_allow_access (self.cpu_agents_ ++ [agent_info.dev_id])
              (rt.hsa_amd_memory_pool_allocate (pool_of cpu0) (mem_page_round size)).2
                = HSA_STATUS_SUCCESS
          · simp only [hacc, if_true]
            constructor
            · intro h; exact absurd h (hrt _ _ hst)
            · rintro (h | ⟨pool, sz, hmem, hfail⟩ | ⟨agents, ptr, hmem, hfail⟩)
              · exact absurd h hne
              · simp at hmem
                obtain ⟨rfl, rfl⟩ := hmem
                exact absurd hst hfail
              · simp at hmem
                obtain ⟨rfl, rfl⟩ := hmem
                exact absurd hacc hfail
          · simp only [hacc, if_false, true_iff]
            exact Or.inr (Or.inr ⟨_, _, by simp, hacc⟩)
        · intro h
          by_cases hacc : rt.hsa_amd_agents_allow_access (self.cpu_agents_ ++ [agent_info.dev_id])
              (rt.hsa_amd_memory_pool_allocate (pool_of cpu0) (mem_page_round size)).2
                = HSA_STATUS_SUCCESS
          · simp only [hacc, if_true] at h ⊢
            exact ⟨_, _, by simp, rfl⟩
          · simp only [hacc, if_false] at h
            exact absurd rfl h

theorem AllocateLocalMemory_null_iff (self : HsaRsrcFactory) (rt : HsaRuntime)
    (agent_info : AgentInfo) (size : Nat)
    (hrt : ∀ pool sz, (rt.hsa_amd_memory_pool_allocate pool sz).1 = HSA_STATUS_SUCCESS →
      (rt.hsa_amd_memory_pool_allocate pool sz).2 ≠ NULL) :
    ((AllocateLocalMemory self rt agent_info size).1 = NULL ↔
      allocationFailed rt (AllocateLocalMemory self rt agent_info size).2.1 ∨
        accessGrantFailed rt (AllocateLocalMemory self rt agent_info size).2.1) ∧
    ((AllocateLocalMemory self rt agent_info size).1 ≠ NULL →
      allocatedBuffer rt (AllocateLocalMemory self rt agent_info size).2.1
        (AllocateLocalMemory self rt agent_info size).1) := by
  rcases AllocateLocalMemory_eq self rt agent_info size with ⟨hst, he⟩ | ⟨hst, he⟩
  · rw [he]
    refine ⟨?_, ?_⟩
    · simp only [true_iff]
      exact Or.inl ⟨_, _, List.mem_singleton.2 rfl, hst⟩
    · intro h; exact absurd rfl h
  · rw [he]
    by_cases hacc : rt.hsa_amd_agents_allow_access [agent_info.dev_id]
        (rt.hsa_amd_memory_pool_allocate agent_info.gpu_pool (mem_page_round size)).2
          = HSA_STATUS_SUCCESS
    · simp only [hacc, if_true]
      refine ⟨?_, ?_⟩
      · constructor
        · intro h; exact absurd h (hrt _ _ hst)
        · rintro (⟨pool, sz, hmem, hfail⟩ | ⟨agents, ptr, hmem, hfail⟩)
          · simp at hmem
            obtain ⟨rfl, rfl⟩ := hmem
            exact absurd hst hfail
          · simp at hmem
            obtain ⟨rfl, rfl⟩ := hmem
            exact absurd hacc hfail
      · intro _
        exact ⟨_, _, by simp, rfl⟩
    · simp only [hacc, if_false]
      refine ⟨?_, ?_⟩
      · simp only [true_iff]
        exact Or.inr ⟨_, _, by simp, hacc⟩
      · intro h; exact absurd rfl h

/-- C7: assume the pool allocator never reports success with a null buffer, and
the catalog has as many host records as host handles.  Then each allocation
function returns null exactly when it fails, and otherwise the buffer the pool
allocator produced: `AllocateLocalMemory` returns null iff the pool allocation
it made failed or the access grant it made failed; `AllocateKernArgMemory` and
`AllocateSysMemory` return null iff there is no host agent, or the pool
allocation failed, or the access grant failed.  Without host agent the last
two return null and make no runtime call, whatever the runtime; and the
pointer and the log of `AllocateLocalMemory` are the same for every catalog. -/
theorem Allocate_null_iff_failure (self : HsaRsrcFactory) (rt : HsaRuntime)
    (agent_info : AgentInfo) (size : Nat)
    (hrt : ∀ pool sz, (rt.hsa_amd_memory_pool_allocate pool sz).1 = HSA_STATUS_SUCCESS →
      (rt.hsa_amd_memory_pool_allocate pool sz).2 ≠ NULL)
    (hwf : self.cpu_list_.length = self.cpu_agents_.length) :
    (((AllocateLocalMemory self rt agent_info size).1 = NULL ↔
        allocationFailed rt (AllocateLocalMemory self rt agent_info size).2.1 ∨
          accessGrantFailed rt (AllocateLocalMemory self rt agent_info size).2.1) ∧
      ((AllocateLocalMemory self rt agent_info size).1 ≠ NULL →
        allocatedBuffer rt (AllocateLocalMemory self rt agent_info size).2.1
          (AllocateLocalMemory self rt agent_info size).1)) ∧
    (∃ r, AllocateKernArgMemory self rt agent_info size = some r ∧
      (r.1 = NULL ↔ self.cpu_agents_ = [] ∨ allocationFailed rt r.2.1 ∨ accessGrantFailed rt r.2.1) ∧
      (r.1 ≠ NULL → allocatedBuffer rt r.2.1 r.1)) ∧
    (∃ r, AllocateSysMemory self rt agent_info size = some r ∧
      (r.1 = NULL ↔ self.cpu_agents_ = [] ∨ allocationFailed rt r.2.1 ∨ accessGrantFailed rt r.2.1) ∧
      (r.1 ≠ NULL → allocatedBuffer rt r.2.1 r.1)) ∧
    (∀ (other : HsaRsrcFactory) (rt' : HsaRuntime), other.cpu_agents_ = [] →
      AllocateKernArgMemory other rt' agent_info size = some (NULL, [], other) ∧
      AllocateSysMemory other rt' agent_info size = some (NULL, [], other)) ∧
    (∀ other : HsaRsrcFactory,
      (AllocateLocalMemory other rt agent_info size).1
        = (AllocateLocalMemory self rt agent_info size).1 ∧
      (AllocateLocalMemory other rt agent_info size).2.1
        = (AllocateLocalMemory self rt agent_info size).2.1) := by
  refine ⟨AllocateLocalMemory_null_iff self rt agent_info size hrt,
    allocateHostMemory_null_iff AgentInfo.kern_arg_pool self rt agent_info size hrt hwf,
    allocateHostMemory_null_iff AgentInfo.cpu_pool self rt agent_info size hrt hwf, ?_, ?_⟩
  · intro other rt' h
    exact ⟨allocateHostMemory_no_host _ other rt' agent_info size h,
      allocateHostMemory_no_host _ other rt' agent_info size h⟩
  · intro other
    rcases AllocateLocalMemory_eq self rt agent_info size with ⟨hst, he⟩ | ⟨hst, he⟩ <;>
      rcases AllocateLocalMemory_eq other rt agent_info size with ⟨hst', he'⟩ | ⟨hst', he'⟩
    · rw [he, he']; exact ⟨rfl, rfl⟩
    · exact absurd hst' hst
    · exact absurd hst hst'
    · rw [he, he']; exact ⟨rfl, rfl⟩

/-- Instance of C7: on the platform without host agent, with the runtime in
which every call succeeds, the kernel-argument and system allocations return
null without any runtime call and the device-local allocation returns the
allocated buffer. -/
theorem Allocate_null_iff_failure_witness :
    AllocateKernArgMemory gpuOnlyFactory sampleRuntime sampleGpu 1
      = some (NULL, [], gpuOnlyFactory) ∧
    AllocateSysMemory gpuOnlyFactory sampleRuntime sampleGpu 1
      = some (NULL, [], gpuOnlyFactory) ∧
    (AllocateLocalMemory gpuOnlyFactory sampleRuntime sampleGpu 1).1 ≠ NULL ∧
    allocatedBuffer sampleRuntime
      (AllocateLocalMemory gpuOnlyFactory sampleRuntime sampleGpu 1).2.1
      (AllocateLocalMemory gpuOnlyFactory sampleRuntime sampleGpu 1).1 := by
  have h := Allocate_null_iff_failure gpuOnlyFactory sampleRuntime sampleGpu 1
    (by intro pool sz _; show (0x10000 : Nat) ≠ NULL; decide) (by decide)
  have hne : (AllocateLocalMemory gpuOnlyFactory sampleRuntime sampleGpu 1).1 ≠ NULL := by decide
  exact ⟨(h.2.2.2.1 gpuOnlyFactory sampleRuntime rfl).1,
    (h.2.2.2.1 gpuOnlyFactory sampleRuntime rfl).2, hne, h.1.2 hne⟩

/-! ## Synchronous copy -/

/-- C8 (the code departs from the claim): when the catalog has a host agent and
signal creation, the copy, the wait (observed value 0) and signal destruction
all succeed, `CopyToHost` makes these four runtime calls and returns `false`.
The `return` statement tests the variable `status` of the function body, which
keeps its initial value `HSA_STATUS_ERROR`; the statuses of the runtime calls
go to the variable of the same name declared inside the block. -/
theorem CopyToHost_false_when_all_steps_succeed (self : HsaRsrcFactory) (rt : HsaRuntime)
    (agent : hsa_agent_t) (dst src size : Nat) (cpu0 : hsa_agent_t) (rest : List hsa_agent_t)
    (hhost : self.cpu_agents_ = cpu0 :: rest)
    (hcreate : (rt.hsa_signal_create 1).1 = HSA_STATUS_SUCCESS)
    (hcopy : rt.hsa_amd_memory_async_copy dst cpu0 src agent size (rt.hsa_signal_create 1).2
      = HSA_STATUS_SUCCESS)
    (_hwait : rt.hsa_signal_wait_scacquire (rt.hsa_signal_create 1).2 = 0)
    (_hdestroy : rt.hsa_signal_destroy (rt.hsa_signal_create 1).2 = HSA_STATUS_SUCCESS) :
    CopyToHost self rt agent dst src size =
      (false,
        [HsaCall.signal_create 1,
          HsaCall.memory_async_copy dst cpu0 src agent size (rt.hsa_signal_create 1).2,
          HsaCall.signal_wait_scacquire (rt.hsa_signal_create 1).2,
          HsaCall.signal_destroy (rt.hsa_signal_create 1).2]) := by
  simp [CopyToHost, hhost, hcreate, hcopy]

/-- Instance of C8: on the sample platform, where every runtime call succeeds,
the copy from the accelerator returns `false`. -/
theorem CopyToHost_false_when_all_steps_succeed_witness :
    CopyToHost sampleFactory sampleRuntime 2 0x2000 0x3000 64 =
      (false,
        [HsaCall.signal_create 1, HsaCall.memory_async_copy 0x2000 1 0x3000 2 64 7,
          HsaCall.signal_wait_scacquire 7, HsaCall.signal_destroy 7]) :=
  CopyToHost_false_when_all_steps_succeed sampleFactory sampleRuntime 2 0x2000 0x3000 64 1 []
    rfl rfl rfl rfl rfl

theorem flag_kernarg_bit (flag : Nat) :
    (flag % 2 ^ 32) &&& HSA_AMD_MEMORY_POOL_GLOBAL_FLAG_KERNARG_INIT = flag % 2 := by
  rw [HSA_AMD_MEMORY_POOL_GLOBAL_FLAG_KERNARG_INIT, Nat.and_one_is_mod]
  have h : (2 : Nat) ^ 32 = 4294967296 := by norm_num
  rw [h]
  omega

/-- C10: when `out` is not null and both property queries succeed,
`FindGlobalPool` returns `HSA_STATUS_INFO_BREAK` with `pool` written to `out`
if the segment of the pool is GLOBAL and the KERNARG_INIT bit of its global
flags is set exactly when `kern_arg` holds, and returns `HSA_STATUS_SUCCESS`
with `out` as it was otherwise.  `FindStandardPool` and `FindKernArgPool` are
this function at `kern_arg = false` and `kern_arg = true`, and they never both
select the pool.  With `out` null the function returns
`HSA_STATUS_ERROR_INVALID_ARGUMENT` and writes nothing. -/
theorem FindGlobalPool_selects (rt : HsaRuntime) (pool out : hsa_amd_memory_pool_t)
    (kern_arg : Bool)
    (hseg : (rt.pool_info_segment pool).1 = HSA_STATUS_SUCCESS)
    (hflg : (rt.pool_info_global_flags pool).1 = HSA_STATUS_SUCCESS) :
    FindGlobalPool rt pool (some out) kern_arg =
      Except.ok
        (if (rt.pool_info_segment pool).2 = HSA_AMD_SEGMENT_GLOBAL ∧
            ((rt.pool_info_global_flags pool).2 % 2 = 1 ↔ kern_arg = true)
          then (HSA_STATUS_INFO_BREAK, some pool)
          else (HSA_STATUS_SUCCESS, some out)) ∧
    FindStandardPool rt pool (some out) = FindGlobalPool rt pool (some out) false ∧
    FindKernArgPool rt pool (some out) = FindGlobalPool rt pool (some out) true ∧
    ¬ (FindStandardPool rt pool (some out) = Except.ok (HSA_STATUS_INFO_BREAK, some pool) ∧
        FindKernArgPool rt pool (some out) = Except.ok (HSA_STATUS_INFO_BREAK, some pool)) ∧
    FindGlobalPool rt pool none kern_arg
      = Except.ok (HSA_STATUS_ERROR_INVALID_ARGUMENT, none) := by
  have key : ∀ ka : Bool, FindGlobalPool rt pool (some out) ka =
      Except.ok
        (if (rt.pool_info_segment pool).2 = HSA_AMD_SEGMENT_GLOBAL ∧
            ((rt.pool_info_global_flags pool).2 % 2 = 1 ↔ ka = true)
          then (HSA_STATUS_INFO_BREAK, some pool)
          else (HSA_STATUS_SUCCESS, some out)) := by
    intro ka
    have hbit : (rt.pool_info_global_flags pool).2 % 4294967296 &&&
        HSA_AMD_MEMORY_POOL_GLOBAL_FLAG_KERNARG_INIT = (rt.pool_info_global_flags pool).2 % 2 := by
      have h := flag_kernarg_bit (rt.pool_info_global_flags pool).2
      have h32 : (2 : Nat) ^ 32 = 4294967296 := by norm_num
      rwa [h32] at h
    have hmod : (rt.pool_info_global_flags pool).2 % 2 = 0 ∨
        (rt.pool_info_global_flags pool).2 % 2 = 1 := by omega
    by_cases hs : (rt.pool_info_segment pool).2 = HSA_AMD_SEGMENT_GLOBAL
    · rcases hmod with hm | hm <;> cases ka <;>
        simp [FindGlobalPool, CHECK_STATUS, hseg, hflg, hs, hbit, hm]
    · have hs' : ¬ (HSA_AMD_SEGMENT_GLOBAL = (rt.pool_info_segment pool).2) :=
        fun h => hs h.symm
      simp [FindGlobalPool, CHECK_STATUS, hseg, hs, hs']
  refine ⟨key kern_arg, rfl, rfl, ?_, rfl⟩
  rintro ⟨h1, h2⟩
  rw [FindStandardPool, key false] at h1
  rw [FindKernArgPool, key true] at h2
  by_cases hs : (rt.pool_info_segment pool).2 = HSA_AMD_SEGMENT_GLOBAL
  · by_cases hm : (rt.pool_info_global_flags pool).2 % 2 = 1
    · simp [hs, hm] at h1
    · simp [hs, hm] at h2
  · simp [hs] at h1

/-- Instance of C10: in the sample runtime pool 12 is global with the
kernel-argument flag, so the kernel-argument variant selects it and the
standard variant passes over it. -/
theorem FindGlobalPool_selects_witness :
    FindGlobalPool sampleRuntime 12 (some 0) true
        = Except.ok (HSA_STATUS_INFO_BREAK, some 12) ∧
    FindGlobalPool sampleRuntime 12 (some 0) false = Except.ok (HSA_STATUS_SUCCESS, some 0) := by
  have h1 := (FindGlobalPool_selects sampleRuntime 12 0 true rfl rfl).1
  have h2 := (FindGlobalPool_selects sampleRuntime 12 0 false rfl rfl).1
  exact ⟨h1.trans rfl, h2.trans rfl⟩

/-! ## Pool iteration -/

theorem flag_kernarg_bit_numeral (flag : Nat) :
    flag % 4294967296 &&& HSA_AMD_MEMORY_POOL_GLOBAL_FLAG_KERNARG_INIT = flag % 2 := by
  rw [HSA_AMD_MEMORY_POOL_GLOBAL_FLAG_KERNARG_INIT, Nat.and_one_is_mod]
  omega

theorem FindGlobalPool_eq (rt : HsaRuntime) (pool out : hsa_amd_memory_pool_t) (kern_arg : Bool)
    [Decidable (poolSelected rt kern_arg pool)]
    (hq : poolQueriesSucceed rt pool) :
    FindGlobalPool rt pool (some out) kern_arg =
      Except.ok (if poolSelected rt kern_arg pool then (HSA_STATUS_INFO_BREAK, some pool)
        else (HSA_STATUS_SUCCESS, some out)) := by
  obtain ⟨hseg, hflg⟩ := hq
  have hbit := flag_kernarg_bit_numeral (rt.pool_info_global_flags pool).2
  have hmod : (rt.pool_info_global_flags pool).2 % 2 = 0 ∨
      (rt.pool_info_global_flags pool).2 % 2 = 1 := by omega
  by_cases hs : (rt.pool_info_segment pool).2 = HSA_AMD_SEGMENT_GLOBAL
  · rcases hmod with hm | hm <;> cases kern_arg <;>
      simp [FindGlobalPool, CHECK_STATUS, hseg, hflg, hs, hbit, hm, poolSelected]
  · have hs' : ¬ (HSA_AMD_SEGMENT_GLOBAL = (rt.pool_info_segment pool).2) :=
      fun h => hs h.symm
    simp [FindGlobalPool, CHECK_STATUS, hseg, hs, hs', poolSelected]

theorem FindGlobalPool_ok (rt : HsaRuntime) (pool out : hsa_amd_memory_pool_t) (kern_arg : Bool)
    (st : hsa_status_t) (d : Option hsa_amd_memory_pool_t)
    (h : FindGlobalPool rt pool (some out) kern_arg = Except.ok (st, d)) :
    (st = HSA_STATUS_SUCCESS ∧ d = some out ∧ ¬ poolSelected rt kern_arg pool) ∨
    (st = HSA_STATUS_INFO_BREAK ∧ d = some pool ∧ poolSelected rt kern_arg pool) := by
  classical
  by_cases hseg : (rt.pool_info_segment pool).1 = HSA_STATUS_SUCCESS
  · by_cases hs : (rt.pool_info_segment pool).2 = HSA_AMD_SEGMENT_GLOBAL
    · by_cases hflg : (rt.pool_info_global_flags pool).1 = HSA_STATUS_SUCCESS
      · rw [FindGlobalPool_eq rt pool out kern_arg ⟨hseg, hflg⟩] at h
        by_cases hsel : poolSelected rt kern_arg pool
        · simp only [hsel, if_true, Except.ok.injEq, Prod.mk.injEq] at h
          exact Or.inr ⟨h.1.symm, h.2.symm, hsel⟩
        · simp only [hsel, if_false, Except.ok.injEq, Prod.mk.injEq] at h
          exact Or.inl ⟨h.1.symm, h.2.symm, hsel⟩
      · simp [FindGlobalPool, CHECK_STATUS, hseg, hs, hflg] at h
    · have hs' : ¬ (HSA_AMD_SEGMENT_GLOBAL = (rt.pool_info_segment pool).2) :=
        fun h => hs h.symm
      simp only [FindGlobalPool, CHECK_STATUS, hseg, if_true, ne_eq, hs', not_false_eq_true,
        Except.ok.injEq, Prod.mk.injEq] at h
      exact Or.inl ⟨h.1.symm, h.2.symm, fun hsel => hs hsel.1⟩
  · simp [FindGlobalPool, CHECK_STATUS, hseg] at h

theorem iterate_no_match (rt : HsaRuntime) (kern_arg : Bool) (out : hsa_amd_memory_pool_t) :
    ∀ pools : List hsa_amd_memory_pool_t,
      (∀ q, q ∈ pools → poolQueriesSucceed rt q ∧ ¬ poolSelected rt kern_arg q) →
      hsa_amd_agent_iterate_memory_pools (fun p d => FindGlobalPool rt p d kern_arg) pools
        (some out) = Except.ok (HSA_STATUS_SUCCESS, some out, pools) := by
  classical
  intro pools
  induction pools with
  | nil => intro _; rfl
  | cons p rest ih =>
    intro h
    have hp := h p (List.mem_cons_self p rest)
    have hrest := ih (fun q hq => h q (List.mem_cons_of_mem p hq))
    simp only [hsa_amd_agent_iterate_memory_pools]
    rw [FindGlobalPool_eq rt p out kern_arg hp.1]
    simp only [hp.2, if_false, if_true, hrest]

theorem iterate_match (rt : HsaRuntime) (kern_arg : Bool) (out p : hsa_amd_memory_pool_t)
    (post : List hsa_amd_memory_pool_t) :
    ∀ pre : List hsa_amd_memory_pool_t,
      (∀ q, q ∈ pre → poolQueriesSucceed rt q ∧ ¬ poolSelected rt kern_arg q) →
      poolQueriesSucceed rt p → poolSelected rt kern_arg p →
      hsa_amd_agent_iterate_memory_pools (fun p d => FindGlobalPool rt p d kern_arg)
        (pre ++ p :: post) (some out) = Except.ok (HSA_STATUS_INFO_BREAK, some p, pre ++ [p]) := by
  classical
  intro pre
  induction pre with
  | nil =>
    intro _ hq hsel
    simp only [List.nil_append, hsa_amd_agent_iterate_memory_pools]
    rw [FindGlobalPool_eq rt p out kern_arg hq]
    simp [hsel]
  | cons a pre ih =>
    intro h hq hsel
    have ha := h a (List.mem_cons_self a pre)
    have hrest := ih (fun q hq => h q (List.mem_cons_of_mem a hq)) hq hsel
    simp only [List.cons_append, hsa_amd_agent_iterate_memory_pools]
    rw [FindGlobalPool_eq rt a out kern_arg ha.1]
    simp only [ha.2, if_false, if_true, List.append_eq, hrest]

theorem iterate_ok (rt : HsaRuntime) (kern_arg : Bool) (out : hsa_amd_memory_pool_t) :
    ∀ (pools : List hsa_amd_memory_pool_t) (st : hsa_status_t)
      (d : Option hsa_amd_memory_pool_t) (vis : List hsa_amd_memory_pool_t),
      hsa_amd_agent_iterate_memory_pools (fun p d => FindGlobalPool rt p d kern_arg) pools
        (some out) = Except.ok (st, d, vis) →
      (st = HSA_STATUS_SUCCESS ∧ d = some out ∧ vis = pools ∧
        ∀ q, q ∈ pools → ¬ poolSelected rt kern_arg q) ∨
      (st = HSA_STATUS_INFO_BREAK ∧ ∃ pre p post, pools = pre ++ p :: post ∧
        (∀ q, q ∈ pre → ¬ poolSelected rt kern_arg q) ∧ poolSelected rt kern_arg p ∧
        d = some p ∧ vis = pre ++ [p]) := by
  intro pools
  induction pools with
  | nil =>
    intro st d vis h
    simp only [hsa_amd_agent_iterate_memory_pools, Except.ok.injEq, Prod.mk.injEq] at h
    exact Or.inl ⟨h.1.symm, h.2.1.symm, h.2.2.symm, fun q hq => absurd hq (List.not_mem_nil q)⟩
  | cons a rest ih =>
    intro st d vis h
    simp only [hsa_amd_agent_iterate_memory_pools] at h
    cases hcb : FindGlobalPool rt a (some out) kern_arg with
    | error e => rw [hcb] at h; cases h
    | ok r =>
      obtain ⟨st1, d1⟩ := r
      rw [hcb] at h
      rcases FindGlobalPool_ok rt a out kern_arg st1 d1 hcb with ⟨hst, hd, hsel⟩ | ⟨hst, hd, hsel⟩
      · subst hst; subst hd
        simp only [if_true] at h
        cases hrec : hsa_amd_agent_iterate_memory_pools
            (fun p d => FindGlobalPool rt p d kern_arg) rest (some out) with
        | error e => rw [hrec] at h; cases h
        | ok r2 =>
          obtain ⟨st2, d2, vis2⟩ := r2
          rw [hrec] at h
          simp only [Except.ok.injEq, Prod.mk.injEq] at h
          obtain ⟨rfl, rfl, rfl⟩ := h
          rcases ih st2 d2 vis2 hrec with ⟨h1, h2, h3, h4⟩ | ⟨h1, pre, p, post, h2, h3, h4, h5, h6⟩
          · refine Or.inl ⟨h1, h2, by rw [h3], ?_⟩
            intro q hq
            rcases List.mem_cons.1 hq with rfl | hq
            · exact hsel
            · exact h4 q hq
          · refine Or.inr ⟨h1, a :: pre, p, post, by rw [h2]; rfl, ?_, h4, h5, by rw [h6]; rfl⟩
            intro q hq
            rcases List.mem_cons.1 hq with rfl | hq
            · exact hsel
            · exact h3 q hq
      · subst hst; subst hd
        simp only [reduceCtorEq, if_false, Except.ok.injEq, Prod.mk.injEq] at h
        obtain ⟨rfl, rfl, rfl⟩ := h
        exact Or.inr ⟨rfl, [], a, rest, rfl, fun q hq => absurd hq (List.not_mem_nil q), hsel,
          rfl, rfl⟩

/-! ## One call of `AddAgentInfo` -/

theorem iterate_field (passes : hsa_status_t → Bool) (rt : HsaRuntime) (kern_arg : Bool)
    (pools : List hsa_amd_memory_pool_t) (st : hsa_status_t)
    (d : Option hsa_amd_memory_pool_t) (vis : List hsa_amd_memory_pool_t)
    (h : hsa_amd_agent_iterate_memory_pools (fun p d => FindGlobalPool rt p d kern_arg) pools
      (some 0) = Except.ok (st, d, vis))
    (hp : passes st = true) :
    (passes HSA_STATUS_SUCCESS = true ∧ d.getD 0 = 0 ∧
      ∀ q, q ∈ pools → ¬ poolSelected rt kern_arg q) ∨
    (passes HSA_STATUS_INFO_BREAK = true ∧ ∃ pre p post, pools = pre ++ p :: post ∧
      (∀ q, q ∈ pre → ¬ poolSelected rt kern_arg q) ∧ poolSelected rt kern_arg p ∧
      d.getD 0 = p) := by
  rcases iterate_ok rt kern_arg 0 pools st d vis h with
    ⟨h1, h2, _, h4⟩ | ⟨h1, pre, p, post, h2, h3, h4, h5, _⟩
  · subst h1; subst h2
    exact Or.inl ⟨hp, rfl, h4⟩
  · subst h1; subst h5
    exact Or.inr ⟨hp, pre, p, post, h2, h3, h4, rfl⟩

theorem addCpuAgent_ok (passes : hsa_status_t → Bool) (pf : HsaPlatform)
    (self next : HsaRsrcFactory) (agent : hsa_agent_t) (r : Option AgentInfo)
    (h : addCpuAgent passes pf self agent = Except.ok (next, r)) :
    ∃ info : AgentInfo, r = some info ∧ info.dev_id = agent ∧
      info.dev_type = hsa_device_type_t.HSA_DEVICE_TYPE_CPU ∧
      info.dev_index = self.cpu_list_.length % 2 ^ 32 ∧ info.gpu_pool = 0 ∧
      (∃ st d vis,
        hsa_amd_agent_iterate_memory_pools (FindStandardPool pf.toHsaRuntime)
          (pf.agent_pools agent) (some 0) = Except.ok (st, d, vis) ∧
        passes st = true ∧ info.cpu_pool = d.getD 0) ∧
      (∃ st d vis,
        hsa_amd_agent_iterate_memory_pools (FindKernArgPool pf.toHsaRuntime)
          (pf.agent_pools agent) (some 0) = Except.ok (st, d, vis) ∧
        passes st = true ∧ info.kern_arg_pool = d.getD 0) ∧
      next.cpu_list_ = self.cpu_list_ ++ [info] ∧
      next.cpu_agents_ = self.cpu_agents_ ++ [agent] ∧
      next.gpu_list_ = self.gpu_list_ ∧ next.gpu_agents_ = self.gpu_agents_ ∧
      next.agent_map_ = fun k => if k = agent then some info else self.agent_map_ k := by
  unfold addCpuAgent at h
  cases h1 : hsa_amd_agent_iterate_memory_pools (FindStandardPool pf.toHsaRuntime)
      (pf.agent_pools agent) (some 0) with
  | error e =>
    have h1' : hsa_amd_agent_iterate_memory_pools (FindStandardPool pf.toHsaRuntime)
        (pf.agent_pools agent) (some AgentInfo.zero.cpu_pool) = Except.error e := h1
    simp only [h1'] at h
    cases h
  | ok r1 =>
    obtain ⟨st1, d1, vis1⟩ := r1
    have h1' : hsa_amd_agent_iterate_memory_pools (FindStandardPool pf.toHsaRuntime)
        (pf.agent_pools agent) (some AgentInfo.zero.cpu_pool) = Except.ok (st1, d1, vis1) := h1
    simp only [h1', CHECK_ITER_STATUS] at h
    by_cases hp1 : passes st1 = true
    · rw [if_pos hp1] at h
      cases h2 : hsa_amd_agent_iterate_memory_pools (FindKernArgPool pf.toHsaRuntime)
          (pf.agent_pools agent) (some 0) with
      | error e =>
        have h2' : hsa_amd_agent_iterate_memory_pools (FindKernArgPool pf.toHsaRuntime)
            (pf.agent_pools agent) (some AgentInfo.zero.kern_arg_pool) = Except.error e := h2
        simp only [h2'] at h
        cases h
      | ok r2 =>
        obtain ⟨st2, d2, vis2⟩ := r2
        have h2' : hsa_amd_agent_iterate_memory_pools (FindKernArgPool pf.toHsaRuntime)
            (pf.agent_pools agent) (some AgentInfo.zero.kern_arg_pool)
              = Except.ok (st2, d2, vis2) := h2
        simp only [h2'] at h
        by_cases hp2 : passes st2 = true
        · rw [if_pos hp2] at h
          simp only [Except.ok.injEq, Prod.mk.injEq] at h
          obtain ⟨hnext, hr⟩ := h
          subst hnext
          exact ⟨_, hr.symm, rfl, rfl, rfl, rfl, ⟨st1, d1, vis1, rfl, hp1, rfl⟩,
            ⟨st2, d2, vis2, rfl, hp2, rfl⟩, rfl, rfl, rfl, rfl, rfl⟩
        · rw [if_neg hp2] at h
          cases h
    · rw [if_neg hp1] at h
      cases h

theorem addGpuAgent_ok (passes : hsa_status_t → Bool) (pf : HsaPlatform)
    (self next : HsaRsrcFactory) (agent : hsa_agent_t) (r : Option AgentInfo)
    (h : addGpuAgent passes pf self agent = Except.ok (next, r)) :
    ∃ info : AgentInfo, r = some info ∧ info.dev_id = agent ∧
      info.dev_type = hsa_device_type_t.HSA_DEVICE_TYPE_GPU ∧
      info.dev_index = self.gpu_list_.length % 2 ^ 32 ∧
      info.cpu_pool = 0 ∧ info.kern_arg_pool = 0 ∧
      (∃ st d vis,
        hsa_amd_agent_iterate_memory_pools (FindStandardPool pf.toHsaRuntime)
          (pf.agent_pools agent) (some 0) = Except.ok (st, d, vis) ∧
        passes st = true ∧ info.gpu_pool = d.getD 0) ∧
      next.gpu_list_ = self.gpu_list_ ++ [info] ∧
      next.gpu_agents_ = self.gpu_agents_ ++ [agent] ∧
      next.cpu_list_ = self.cpu_list_ ∧ next.cpu_agents_ = self.cpu_agents_ ∧
      next.agent_map_ = fun k => if k = agent then some info else self.agent_map_ k := by
  unfold addGpuAgent at h
  cases h1 : hsa_amd_agent_iterate_memory_pools (FindStandardPool pf.toHsaRuntime)
      (pf.agent_pools agent) (some 0) with
  | error e =>
    have h1' : hsa_amd_agent_iterate_memory_pools (FindStandardPool pf.toHsaRuntime)
        (pf.agent_pools agent) (some (gpuAgentRecord pf agent).gpu_pool) = Except.error e := h1
    simp only [h1'] at h
    cases h
  | ok r1 =>
    obtain ⟨st1, d1, vis1⟩ := r1
    have h1' : hsa_amd_agent_iterate_memory_pools (FindStandardPool pf.toHsaRuntime)
        (pf.agent_pools agent) (some (gpuAgentRecord pf agent).gpu_pool)
          = Except.ok (st1, d1, vis1) := h1
    simp only [h1', CHECK_ITER_STATUS] at h
    by_cases hp1 : passes st1 = true
    · rw [if_pos hp1] at h
      simp only [Except.ok.injEq, Prod.mk.injEq] at h
      obtain ⟨hnext, hr⟩ := h
      subst hnext
      exact ⟨_, hr.symm, rfl, rfl, rfl, rfl, rfl, ⟨st1, d1, vis1, rfl, hp1, rfl⟩,
        rfl, rfl, rfl, rfl, rfl⟩
    · rw [if_neg hp1] at h
      cases h

theorem AddAgentInfo_ok (passes : hsa_status_t → Bool) (pf : HsaPlatform)
    (self next : HsaRsrcFactory) (agent : hsa_agent_t) (r : Option AgentInfo)
    (h : AddAgentInfo passes pf self agent = Except.ok (next, r)) :
    (pf.agent_info_device agent).1 = HSA_STATUS_SUCCESS ∧
    (((pf.agent_info_device agent).2 = hsa_device_type_t.HSA_DEVICE_TYPE_CPU ∧
        addCpuAgent passes pf self agent = Except.ok (next, r)) ∨
      ((pf.agent_info_device agent).2 = hsa_device_type_t.HSA_DEVICE_TYPE_GPU ∧
        addGpuAgent passes pf self agent = Except.ok (next, r)) ∨
      ((pf.agent_info_device agent).2 = hsa_device_type_t.HSA_DEVICE_TYPE_DSP ∧
        r = none ∧ next = self)) := by
  unfold AddAgentInfo CHECK_STATUS at h
  by_cases hdev : (pf.agent_info_device agent).1 = HSA_STATUS_SUCCESS
  · refine ⟨hdev, ?_⟩
    simp only [hdev, if_true] at h
    cases hty : (pf.agent_info_device agent).2 with
    | HSA_DEVICE_TYPE_CPU =>
      rw [hty] at h
      exact Or.inl ⟨rfl, h⟩
    | HSA_DEVICE_TYPE_GPU =>
      rw [hty] at h
      exact Or.inr (Or.inl ⟨rfl, h⟩)
    | HSA_DEVICE_TYPE_DSP =>
      rw [hty] at h
      simp only [Except.ok.injEq, Prod.mk.injEq] at h
      exact Or.inr (Or.inr ⟨rfl, h.2.symm, h.1.symm⟩)
  · simp only [hdev, if_false] at h
    cases h

/-! ## Catalogs built by discovery -/

theorem getElem?_append_singleton {α : Type} (l : List α) (x r : α) (i : Nat)
    (h : (l ++ [x])[i]? = some r) : l[i]? = some r ∨ (i = l.length ∧ r = x) := by
  by_cases hi : i < l.length
  · rw [List.getElem?_append_left hi] at h
    exact Or.inl h
  · rw [List.getElem?_append_right (by omega)] at h
    right
    by_cases h0 : i - l.length = 0
    · rw [h0] at h
      simp only [List.getElem?_cons_zero, Option.some.injEq] at h
      exact ⟨by omega, h.symm⟩
    · obtain ⟨k, hk⟩ : ∃ k, i - l.length = k + 1 := ⟨i - l.length - 1, by omega⟩
      rw [hk] at h
      simp at h

theorem CatalogInv_empty (passes : hsa_status_t → Bool) (pf : HsaPlatform) :
    CatalogInv passes pf HsaRsrcFactory.empty where
  cpu_agents := rfl
  gpu_agents := rfl
  cpu_index := by intro i r h; simp [HsaRsrcFactory.empty] at h
  gpu_index := by intro i r h; simp [HsaRsrcFactory.empty] at h
  cpu_origin := by intro r h; simp [HsaRsrcFactory.empty] at h
  gpu_origin := by intro r h; simp [HsaRsrcFactory.empty] at h
  map_record := by intro h r hm; simp [HsaRsrcFactory.empty] at hm
  map_domain := by intro h; simp [HsaRsrcFactory.empty]

theorem CatalogInv_addCpu (passes : hsa_status_t → Bool) (pf : HsaPlatform)
    (self next : HsaRsrcFactory) (agent : hsa_agent_t) (r : Option AgentInfo)
    (inv : CatalogInv passes pf self)
    (h : addCpuAgent passes pf self agent = Except.ok (next, r)) :
    CatalogInv passes pf next := by
  obtain ⟨info, hr, hid, hty, hidx, _, _, _, hcl, hca, hgl, hga, hmap⟩ :=
    addCpuAgent_ok passes pf self next agent r h
  subst hr
  refine ⟨?_, ?_, ?_, ?_, ?_, ?_, ?_, ?_⟩
  · rw [hca, hcl, inv.cpu_agents, List.map_append, List.map_singleton, hid]
  · rw [hga, hgl, inv.gpu_agents]
  · intro i rec hi
    rw [hcl] at hi
    rcases getElem?_append_singleton _ _ _ _ hi with hi | ⟨hi, hrec⟩
    · exact inv.cpu_index i rec hi
    · rw [hrec, hidx, hi]
  · intro i rec hi
    rw [hgl] at hi
    exact inv.gpu_index i rec hi
  · intro rec hrec
    rw [hcl, List.mem_append, List.mem_singleton] at hrec
    rcases hrec with hrec | hrec
    · exact inv.cpu_origin rec hrec
    · subst hrec
      exact ⟨self, next, by rw [hid]; exact h⟩
  · intro rec hrec
    rw [hgl] at hrec
    exact inv.gpu_origin rec hrec
  · intro k rec hk
    rw [hmap] at hk
    by_cases hka : k = agent
    · simp only [hka, if_true, Option.some.injEq] at hk
      subst hk
      exact ⟨by rw [hid, hka], Or.inl ⟨hty, by rw [hcl]; simp⟩⟩
    · simp only [hka, if_false] at hk
      obtain ⟨h1, h2⟩ := inv.map_record k rec hk
      refine ⟨h1, ?_⟩
      rcases h2 with ⟨h2, h3⟩ | ⟨h2, h3⟩
      · exact Or.inl ⟨h2, by rw [hcl]; exact List.mem_append_left _ h3⟩
      · exact Or.inr ⟨h2, by rw [hgl]; exact h3⟩
  · intro k
    rw [hmap, hca, hga]
    by_cases hka : k = agent
    · simp [hka]
    · simp only [hka, if_false, List.mem_append, List.mem_singleton, or_false]
      exact inv.map_domain k

theorem CatalogInv_addGpu (passes : hsa_status_t → Bool) (pf : HsaPlatform)
    (self next : HsaRsrcFactory) (agent : hsa_agent_t) (r : Option AgentInfo)
    (inv : CatalogInv passes pf self)
    (h : addGpuAgent passes pf self agent = Except.ok (next, r)) :
    CatalogInv passes pf next := by
  obtain ⟨info, hr, hid, hty, hidx, _, _, _, hgl, hga, hcl, hca, hmap⟩ :=
    addGpuAgent_ok passes pf self next agent r h
  subst hr
  refine ⟨?_, ?_, ?_, ?_, ?_, ?_, ?_, ?_⟩
  · rw [hca, hcl, inv.cpu_agents]
  · rw [hga, hgl, inv.gpu_agents, List.map_append, List.map_singleton, hid]
  · intro i rec hi
    rw [hcl] at hi
    exact inv.cpu_index i rec hi
  · intro i rec hi
    rw [hgl] at hi
    rcases getElem?_append_singleton _ _ _ _ hi with hi | ⟨hi, hrec⟩
    · exact inv.gpu_index i rec hi
    · rw [hrec, hidx, hi]
  · intro rec hrec
    rw [hcl] at hrec
    exact inv.cpu_origin rec hrec
  · intro rec hrec
    rw [hgl, List.mem_append, List.mem_singleton] at hrec
    rcases hrec with hrec | hrec
    · exact inv.gpu_origin rec hrec
    · subst hrec
      exact ⟨self, next, by rw [hid]; exact h⟩
  · intro k rec hk
    rw [hmap] at hk
    by_cases hka : k = agent
    · simp only [hka, if_true, Option.some.injEq] at hk
      subst hk
      exact ⟨by rw [hid, hka], Or.inr ⟨hty, by rw [hgl]; simp⟩⟩
    · simp only [hka, if_false] at hk
      obtain ⟨h1, h2⟩ := inv.map_record k rec hk
      refine ⟨h1, ?_⟩
      rcases h2 with ⟨h2, h3⟩ | ⟨h2, h3⟩
      · exact Or.inl ⟨h2, by rw [hcl]; exact h3⟩
      · exact Or.inr ⟨h2, by rw [hgl]; exact List.mem_append_left _ h3⟩
  · intro k
    rw [hmap, hca, hga]
    by_cases hka : k = agent
    · simp [hka]
    · simp only [hka, if_false, List.mem_append, List.mem_singleton, or_false]
      exact inv.map_domain k

theorem CatalogInv_add (passes : hsa_status_t → Bool) (pf : HsaPlatform)
    (self next : HsaRsrcFactory) (agent : hsa_agent_t) (r : Option AgentInfo)
    (inv : CatalogInv passes pf self)
    (h : AddAgentInfo passes pf self agent = Except.ok (next, r)) :
    CatalogInv passes pf next := by
  rcases (AddAgentInfo_ok passes pf self next agent r h).2 with
    ⟨_, hc⟩ | ⟨_, hg⟩ | ⟨_, _, hn⟩
  · exact CatalogInv_addCpu passes pf self next agent r inv hc
  · exact CatalogInv_addGpu passes pf self next agent r inv hg
  · rw [hn]; exact inv

theorem Discovered_inv (passes : hsa_status_t → Bool) (pf : HsaPlatform) (f : HsaRsrcFactory)
    (h : Discovered passes pf f) : CatalogInv passes pf f := by
  induction h with
  | empty => exact CatalogInv_empty passes pf
  | add self next agent r _ hadd ih => exact CatalogInv_add passes pf self next agent r ih hadd

/-! ## Enumeration of the agents -/

theorem GetHsaAgentsCallback_ok (passes : hsa_status_t → Bool) (pf : HsaPlatform)
    (agent : hsa_agent_t) (self next : HsaRsrcFactory) (st : hsa_status_t)
    (h : GetHsaAgentsCallback passes pf agent self = Except.ok (st, next)) :
    ∃ r, AddAgentInfo passes pf self agent = Except.ok (next, r) ∧
      ((r ≠ none ∧ st = HSA_STATUS_SUCCESS) ∨ (r = none ∧ st = HSA_STATUS_ERROR)) := by
  unfold GetHsaAgentsCallback at h
  cases hadd : AddAgentInfo passes pf self agent with
  | error e => rw [hadd] at h; cases h
  | ok res =>
    obtain ⟨nx, r⟩ := res
    rw [hadd] at h
    simp only [Except.ok.injEq, Prod.mk.injEq] at h
    obtain ⟨hst, hnx⟩ := h
    subst hnx
    refine ⟨r, rfl, ?_⟩
    by_cases hr : r = none
    · right
      refine ⟨hr, ?_⟩
      rw [← hst, hr]
      simp
    · left
      refine ⟨hr, ?_⟩
      rw [← hst]
      simp [hr]

theorem iterate_agents_ok (passes : hsa_status_t → Bool) (pf : HsaPlatform) :
    ∀ (agents : List hsa_agent_t) (self f : HsaRsrcFactory) (st : hsa_status_t),
      Discovered passes pf self →
      hsa_iterate_agents (GetHsaAgentsCallback passes pf) agents self = Except.ok (st, f) →
      Discovered passes pf f ∧
      (st = HSA_STATUS_SUCCESS →
        f.cpu_agents_ = self.cpu_agents_ ++ agents.filter (fun a =>
          decide ((pf.agent_info_device a).2 = hsa_device_type_t.HSA_DEVICE_TYPE_CPU)) ∧
        f.gpu_agents_ = self.gpu_agents_ ++ agents.filter (fun a =>
          decide ((pf.agent_info_device a).2 = hsa_device_type_t.HSA_DEVICE_TYPE_GPU))) := by
  intro agents
  induction agents with
  | nil =>
    intro self f st hd h
    simp only [hsa_iterate_agents, Except.ok.injEq, Prod.mk.injEq] at h
    obtain ⟨_, rfl⟩ := h
    exact ⟨hd, fun _ => by simp⟩
  | cons a rest ih =>
    intro self f st hd h
    simp only [hsa_iterate_agents] at h
    cases hcb : GetHsaAgentsCallback passes pf a self with
    | error e => rw [hcb] at h; cases h
    | ok res =>
      obtain ⟨st1, s1⟩ := res
      rw [hcb] at h
      obtain ⟨r, hadd, hst⟩ := GetHsaAgentsCallback_ok passes pf a self s1 st1 hcb
      have hd1 : Discovered passes pf s1 := Discovered.add self s1 a r hd hadd
      rcases hst with ⟨hr, hst1⟩ | ⟨hr, hst1⟩
      · subst hst1
        simp only [if_true] at h
        obtain ⟨hdf, hlists⟩ := ih s1 f st hd1 h
        refine ⟨hdf, ?_⟩
        intro hs
        obtain ⟨hc, hg⟩ := hlists hs
        rcases (AddAgentInfo_ok passes pf self s1 a r hadd).2 with
          ⟨hty, hcpu⟩ | ⟨hty, hgpu⟩ | ⟨_, hnone, _⟩
        · obtain ⟨info, _, _, _, _, _, _, _, _, hca, _, hga, _⟩ :=
            addCpuAgent_ok passes pf self s1 a r hcpu
          rw [hc, hg, hca, hga]
          simp [List.filter_cons, hty]
        · obtain ⟨info, _, _, _, _, _, _, _, _, hga, _, hca, _⟩ :=
            addGpuAgent_ok passes pf self s1 a r hgpu
          rw [hc, hg, hca, hga]
          simp [List.filter_cons, hty]
        · exact absurd hnone hr
      · subst hst1
        simp only [reduceCtorEq, if_false, Except.ok.injEq, Prod.mk.injEq] at h
        obtain ⟨rfl, rfl⟩ := h
        exact ⟨hd1, fun hs => by cases hs⟩

theorem discover_ok (passes : hsa_status_t → Bool) (pf : HsaPlatform)
    (agents : List hsa_agent_t) (f : HsaRsrcFactory)
    (h : discover passes pf agents = Except.ok f) :
    Discovered passes pf f ∧
    f.cpu_agents_ = agents.filter (fun a =>
      decide ((pf.agent_info_device a).2 = hsa_device_type_t.HSA_DEVICE_TYPE_CPU)) ∧
    f.gpu_agents_ = agents.filter (fun a =>
      decide ((pf.agent_info_device a).2 = hsa_device_type_t.HSA_DEVICE_TYPE_GPU)) := by
  unfold discover at h
  cases hit : hsa_iterate_agents (GetHsaAgentsCallback passes pf) agents HsaRsrcFactory.empty with
  | error e => rw [hit] at h; cases h
  | ok res =>
    obtain ⟨st, s⟩ := res
    rw [hit] at h
    simp only [CHECK_STATUS] at h
    by_cases hst : st = HSA_STATUS_SUCCESS
    · rw [if_pos hst] at h
      simp only [Except.ok.injEq] at h
      subst h
      obtain ⟨hd, hl⟩ := iterate_agents_ok passes pf agents HsaRsrcFactory.empty s st
        Discovered.empty hit
      obtain ⟨hc, hg⟩ := hl hst
      exact ⟨hd, by simpa [HsaRsrcFactory.empty] using hc,
        by simpa [HsaRsrcFactory.empty] using hg⟩
    · rw [if_neg hst] at h
      cases h

theorem selected_of_iterate (passes : hsa_status_t → Bool) (rt : HsaRuntime) (kern_arg : Bool)
    (pools : List hsa_amd_memory_pool_t) (st : hsa_status_t)
    (d : Option hsa_amd_memory_pool_t) (vis : List hsa_amd_memory_pool_t)
    (hpass : ∀ s, passes s = true → s = HSA_STATUS_INFO_BREAK)
    (h : hsa_amd_agent_iterate_memory_pools (fun p d => FindGlobalPool rt p d kern_arg) pools
      (some 0) = Except.ok (st, d, vis))
    (hp : passes st = true) :
    d.getD 0 ∈ pools ∧ poolSelected rt kern_arg (d.getD 0) := by
  rcases iterate_field passes rt kern_arg pools st d vis h hp with
    ⟨hs, _, _⟩ | ⟨_, pre, p, post, hpools, _, hsel, hd⟩
  · exact absurd (hpass _ hs) (by decide)
  · rw [hd]
    exact ⟨by rw [hpools]; simp, hsel⟩

theorem sampleDiscovered_eq :
    discover passesOnBreak samplePlatform [1, 2] = Except.ok sampleDiscovered := rfl

theorem sampleDiscovered_discovered : Discovered passesOnBreak samplePlatform sampleDiscovered :=
  (discover_ok passesOnBreak samplePlatform [1, 2] sampleDiscovered sampleDiscovered_eq).1

theorem passesOnBreak_only (st : hsa_status_t) (h : passesOnBreak st = true) :
    st = HSA_STATUS_INFO_BREAK := by
  simpa [passesOnBreak] using h

theorem samplePlatform_pools (a : hsa_agent_t) (p : hsa_amd_memory_pool_t)
    (h : p ∈ samplePlatform.agent_pools a) : p ≠ 0 := by
  simp only [samplePlatform] at h
  intro h0
  subst h0
  split_ifs at h <;> simp at h

theorem populated_of_break_only (passes : hsa_status_t → Bool) (pf : HsaPlatform)
    (f : HsaRsrcFactory) (hd : Discovered passes pf f)
    (hpass : ∀ st, passes st = true → st = HSA_STATUS_INFO_BREAK)
    (hpools : ∀ a p, p ∈ pf.agent_pools a → p ≠ 0) :
    (∀ r, r ∈ f.cpu_list_ → r.cpu_pool ≠ 0 ∧ r.kern_arg_pool ≠ 0) ∧
    (∀ r, r ∈ f.gpu_list_ → r.gpu_pool ≠ 0) := by
  have inv := Discovered_inv passes pf f hd
  constructor
  · intro r hr
    obtain ⟨self, next, hadd⟩ := inv.cpu_origin r hr
    obtain ⟨info, hinfo, _, _, _, _, ⟨st1, d1, vis1, h1, hp1, hc⟩,
      ⟨st2, d2, vis2, h2, hp2, hk⟩, _⟩ := addCpuAgent_ok passes pf self next r.dev_id _ hadd
    cases hinfo
    obtain ⟨hm1, _⟩ := selected_of_iterate passes pf.toHsaRuntime false _ st1 d1 vis1 hpass h1 hp1
    obtain ⟨hm2, _⟩ := selected_of_iterate passes pf.toHsaRuntime true _ st2 d2 vis2 hpass h2 hp2
    rw [← hc] at hm1
    rw [← hk] at hm2
    exact ⟨hpools _ _ hm1, hpools _ _ hm2⟩
  · intro r hr
    obtain ⟨self, next, hadd⟩ := inv.gpu_origin r hr
    obtain ⟨info, hinfo, _, _, _, _, _, ⟨st1, d1, vis1, h1, hp1, hg⟩, _⟩ :=
      addGpuAgent_ok passes pf self next r.dev_id _ hadd
    cases hinfo
    obtain ⟨hm1, _⟩ := selected_of_iterate passes pf.toHsaRuntime false _ st1 d1 vis1 hpass h1 hp1
    rw [← hg] at hm1
    exact hpools _ _ hm1

theorem sampleDiscovered_populated :
    (∀ r, r ∈ sampleDiscovered.cpu_list_ → r.cpu_pool ≠ 0 ∧ r.kern_arg_pool ≠ 0) ∧
    (∀ r, r ∈ sampleDiscovered.gpu_list_ → r.gpu_pool ≠ 0) :=
  populated_of_break_only passesOnBreak samplePlatform sampleDiscovered
    sampleDiscovered_discovered passesOnBreak_only samplePlatform_pools

/-! ## Statements on the catalog -/

/-- C12: on a successful pool allocation `AllocateLocalMemory` allocates from
the device-local pool of the target and grants access to the one-element list
holding the target; `AllocateKernArgMemory` and `AllocateSysMemory` allocate
from the kernel-argument pool, respectively the system pool, of the first host
record and grant access to the host handles of the catalog followed by the
target, a list of length number of host agents plus one.  The host handles
of a catalog built by discovery are the host agents in enumeration order.  In
every outcome, failure included, each of the three functions leaves the
catalog as it found it, so the host-agent list `cpu_agents_` is the same after
the call: the target is appended to the copy `agents_vec` only. -/
theorem access_granted_by_flavor (self : HsaRsrcFactory) (rt : HsaRuntime)
    (agent_info : AgentInfo) (size : Nat) :
    ((rt.hsa_amd_memory_pool_allocate agent_info.gpu_pool (mem_page_round size)).1
        = HSA_STATUS_SUCCESS →
      (AllocateLocalMemory self rt agent_info size).2.1 =
        [HsaCall.memory_pool_allocate agent_info.gpu_pool (mem_page_round size),
          HsaCall.agents_allow_access [agent_info.dev_id]
            (rt.hsa_amd_memory_pool_allocate agent_info.gpu_pool (mem_page_round size)).2]) ∧
    (∀ (cpu0 : AgentInfo) (rest : List AgentInfo), self.cpu_list_ = cpu0 :: rest →
      self.cpu_agents_ ≠ [] →
      ((rt.hsa_amd_memory_pool_allocate cpu0.kern_arg_pool (mem_page_round size)).1
          = HSA_STATUS_SUCCESS →
        ∃ ptr, AllocateKernArgMemory self rt agent_info size =
          some (ptr,
            [HsaCall.memory_pool_allocate cpu0.kern_arg_pool (mem_page_round size),
              HsaCall.agents_allow_access (self.cpu_agents_ ++ [agent_info.dev_id])
                (rt.hsa_amd_memory_pool_allocate cpu0.kern_arg_pool
                  (mem_page_round size)).2],
            self)) ∧
      ((rt.hsa_amd_memory_pool_allocate cpu0.cpu_pool (mem_page_round size)).1
          = HSA_STATUS_SUCCESS →
        ∃ ptr, AllocateSysMemory self rt agent_info size =
          some (ptr,
            [HsaCall.memory_pool_allocate cpu0.cpu_pool (mem_page_round size),
              HsaCall.agents_allow_access (self.cpu_agents_ ++ [agent_info.dev_id])
                (rt.hsa_amd_memory_pool_allocate cpu0.cpu_pool (mem_page_round size)).2],
            self))) ∧
    (self.cpu_agents_ ++ [agent_info.dev_id]).length = self.cpu_agents_.length + 1 ∧
    (∀ (passes : hsa_status_t → Bool) (pf : HsaPlatform) (agents : List hsa_agent_t),
      discover passes pf agents = Except.ok self →
      self.cpu_agents_ = agents.filter (fun a =>
        decide ((pf.agent_info_device a).2 = hsa_device_type_t.HSA_DEVICE_TYPE_CPU)) ∧
      self.cpu_agents_ = self.cpu_list_.map AgentInfo.dev_id) ∧
    ((AllocateLocalMemory self rt agent_info size).2.2 = self ∧
      (AllocateLocalMemory self rt agent_info size).2.2.cpu_agents_ = self.cpu_agents_) ∧
    (∀ r, AllocateKernArgMemory self rt agent_info size = some r →
      r.2.2 = self ∧ r.2.2.cpu_agents_ = self.cpu_agents_) ∧
    (∀ r, AllocateSysMemory self rt agent_info size = some r →
      r.2.2 = self ∧ r.2.2.cpu_agents_ = self.cpu_agents_) := by
  refine ⟨?_, ?_, by simp, ?_, ?_, ?_, ?_⟩
  · intro hs
    rcases AllocateLocalMemory_eq self rt agent_info size with ⟨hf, _⟩ | ⟨_, he⟩
    · exact absurd hs hf
    · rw [he]
  · intro cpu0 rest hlist hne
    constructor
    · intro hs
      rcases allocateHostMemory_eq AgentInfo.kern_arg_pool self rt agent_info size cpu0 rest
        hlist hne with ⟨hf, _⟩ | ⟨_, he⟩
      · exact absurd hs hf
      · exact ⟨_, he⟩
    · intro hs
      rcases allocateHostMemory_eq AgentInfo.cpu_pool self rt agent_info size cpu0 rest
        hlist hne with ⟨hf, _⟩ | ⟨_, he⟩
      · exact absurd hs hf
      · exact ⟨_, he⟩
  · intro passes pf agents hdisc
    obtain ⟨hd, hc, _⟩ := discover_ok passes pf agents self hdisc
    exact ⟨hc, (Discovered_inv passes pf self hd).cpu_agents⟩
  · have h := AllocateLocalMemory_catalog self rt agent_info size
    exact ⟨h, by rw [h]⟩
  · intro r hr
    have h := allocateHostMemory_catalog AgentInfo.kern_arg_pool self rt agent_info size r hr
    exact ⟨h, by rw [h]⟩
  · intro r hr
    have h := allocateHostMemory_catalog AgentInfo.cpu_pool self rt agent_info size r hr
    exact ⟨h, by rw [h]⟩

/-- Instance of C12: on the sample catalog the kernel-argument allocation for
the accelerator allocates from pool 12, grants access to the agents 1 and 2
and leaves the catalog, whose host-agent list is `[1]`, as it was; the
device-local allocation grants access to agent 2 alone. -/
theorem access_granted_by_flavor_witness :
    (AllocateLocalMemory sampleFactory sampleRuntime sampleGpu 1).2.1 =
      [HsaCall.memory_pool_allocate 21 4096, HsaCall.agents_allow_access [2] 0x10000] ∧
    (∃ ptr, AllocateKernArgMemory sampleFactory sampleRuntime sampleGpu 1 =
      some (ptr, [HsaCall.memory_pool_allocate 12 4096,
        HsaCall.agents_allow_access [1, 2] 0x10000], sampleFactory)) ∧
    sampleFactory.cpu_agents_ = [1] :=
  ⟨(access_granted_by_flavor sampleFactory sampleRuntime sampleGpu 1).1 rfl,
    ((access_granted_by_flavor sampleFactory sampleRuntime sampleGpu 1).2.1 sampleCpu [] rfl
      (by decide)).1 rfl, rfl⟩

/-- C13: in a catalog built by `AddAgentInfo`, for every index `idx` (a
`uint32_t`), `GetGpuAgentInfo(idx, out)` returns true exactly when
`idx < GetCountOfGpuAgents()` and `GetCpuAgentInfo(idx, out)` exactly when
`idx < GetCountOfCpuAgents()`; on true `out` holds the record at position
`idx` of the class sequence, which has the class of the sequence and
`dev_index = idx`; on false `out` is as before. -/
theorem lookup_by_index (passes : hsa_status_t → Bool) (pf : HsaPlatform) (f : HsaRsrcFactory)
    (hd : Discovered passes pf f) (idx : Nat) (hidx : idx < 2 ^ 32) (out : Option AgentInfo) :
    ((GetGpuAgentInfo f idx out).1 = true ↔ idx < GetCountOfGpuAgents f) ∧
    ((GetCpuAgentInfo f idx out).1 = true ↔ idx < GetCountOfCpuAgents f) ∧
    ((GetGpuAgentInfo f idx out).1 = true →
      ∃ r, (GetGpuAgentInfo f idx out).2 = some r ∧ f.gpu_list_[idx]? = some r ∧
        r.dev_type = hsa_device_type_t.HSA_DEVICE_TYPE_GPU ∧ r.dev_index = idx) ∧
    ((GetCpuAgentInfo f idx out).1 = true →
      ∃ r, (GetCpuAgentInfo f idx out).2 = some r ∧ f.cpu_list_[idx]? = some r ∧
        r.dev_type = hsa_device_type_t.HSA_DEVICE_TYPE_CPU ∧ r.dev_index = idx) ∧
    ((GetGpuAgentInfo f idx out).1 = false → (GetGpuAgentInfo f idx out).2 = out) ∧
    ((GetCpuAgentInfo f idx out).1 = false → (GetCpuAgentInfo f idx out).2 = out) := by
  have inv := Discovered_inv passes pf f hd
  have hgle : f.gpu_list_.length % 2 ^ 32 ≤ f.gpu_list_.length := Nat.mod_le _ _
  have hcle : f.cpu_list_.length % 2 ^ 32 ≤ f.cpu_list_.length := Nat.mod_le _ _
  refine ⟨?_, ?_, ?_, ?_, ?_, ?_⟩
  · unfold GetGpuAgentInfo GetCountOfGpuAgents
    by_cases h : idx ≥ f.gpu_list_.length % 2 ^ 32
    · simp only [h, if_true]
      constructor
      · intro hf; cases hf
      · intro hlt; omega
    · simp only [h, if_false, true_iff]
      omega
  · unfold GetCpuAgentInfo GetCountOfCpuAgents
    by_cases h : idx ≥ f.cpu_list_.length % 2 ^ 32
    · simp only [h, if_true]
      constructor
      · intro hf; cases hf
      · intro hlt; omega
    · simp only [h, if_false, true_iff]
      omega
  · unfold GetGpuAgentInfo
    by_cases h : idx ≥ f.gpu_list_.length % 2 ^ 32
    · simp only [h, if_true]
      intro hf; cases hf
    · simp only [h, if_false]
      intro _
      have hlt : idx < f.gpu_list_.length := by omega
      refine ⟨f.gpu_list_[idx], List.getElem?_eq_getElem hlt, List.getElem?_eq_getElem hlt, ?_, ?_⟩
      · obtain ⟨self, next, hadd⟩ := inv.gpu_origin _ (List.getElem_mem hlt)
        obtain ⟨info, hinfo, _, hty, _⟩ := addGpuAgent_ok passes pf self next _ _ hadd
        cases hinfo
        exact hty
      · rw [inv.gpu_index idx _ (List.getElem?_eq_getElem hlt)]
        exact Nat.mod_eq_of_lt hidx
  · unfold GetCpuAgentInfo
    by_cases h : idx ≥ f.cpu_list_.length % 2 ^ 32
    · simp only [h, if_true]
      intro hf; cases hf
    · simp only [h, if_false]
      intro _
      have hlt : idx < f.cpu_list_.length := by omega
      refine ⟨f.cpu_list_[idx], List.getElem?_eq_getElem hlt, List.getElem?_eq_getElem hlt, ?_, ?_⟩
      · obtain ⟨self, next, hadd⟩ := inv.cpu_origin _ (List.getElem_mem hlt)
        obtain ⟨info, hinfo, _, hty, _⟩ := addCpuAgent_ok passes pf self next _ _ hadd
        cases hinfo
        exact hty
      · rw [inv.cpu_index idx _ (List.getElem?_eq_getElem hlt)]
        exact Nat.mod_eq_of_lt hidx
  · unfold GetGpuAgentInfo
    by_cases h : idx ≥ f.gpu_list_.length % 2 ^ 32
    · simp only [h, if_true, implies_true]
    · simp only [h, if_false]
      intro hf; cases hf
  · unfold GetCpuAgentInfo
    by_cases h : idx ≥ f.cpu_list_.length % 2 ^ 32
    · simp only [h, if_true, implies_true]
    · simp only [h, if_false]
      intro hf; cases hf

/-- Instance of C13: in the catalog discovered on the sample platform index 0
of the accelerators gives the accelerator record and index 1 gives nothing. -/
theorem lookup_by_index_witness :
    (GetGpuAgentInfo sampleDiscovered 0 none).1 = true ∧
    (∃ r, (GetGpuAgentInfo sampleDiscovered 0 none).2 = some r ∧
      sampleDiscovered.gpu_list_[0]? = some r ∧
      r.dev_type = hsa_device_type_t.HSA_DEVICE_TYPE_GPU ∧ r.dev_index = 0) ∧
    (GetGpuAgentInfo sampleDiscovered 1 none).2 = none := by
  have h0 := lookup_by_index passesOnBreak samplePlatform sampleDiscovered
    sampleDiscovered_discovered 0 (by decide) none
  have h1 := lookup_by_index passesOnBreak samplePlatform sampleDiscovered
    sampleDiscovered_discovered 1 (by decide) none
  have ht : (GetGpuAgentInfo sampleDiscovered 0 none).1 = true := h0.1.2 (by decide)
  have hf : (GetGpuAgentInfo sampleDiscovered 1 none).1 = false := by decide
  exact ⟨ht, h0.2.2.1 ht, h1.2.2.2.2.1 hf⟩

/-- C14: a call of `AddAgentInfo` that stores a record for `agent` makes
`GetAgentInfo(agent)` return that record, whose `dev_id` is `agent` and which
is an element of the sequence of its class; any call of `AddAgentInfo` leaves
`GetAgentInfo` as it was on every other handle, removes no entry of the map
and no record of the sequences.  Hence in every catalog built by
`AddAgentInfo` a handle in one of the raw-handle lists has a record with that
`dev_id` in the sequence of its class, and a handle in neither list, that is
one for which no record was stored, has none. -/
theorem lookup_by_handle (passes : hsa_status_t → Bool) (pf : HsaPlatform) :
    (∀ (self next : HsaRsrcFactory) (agent : hsa_agent_t) (r : AgentInfo),
      AddAgentInfo passes pf self agent = Except.ok (next, some r) →
      GetAgentInfo next agent = some r ∧ r.dev_id = agent ∧
      ((r.dev_type = hsa_device_type_t.HSA_DEVICE_TYPE_CPU ∧ r ∈ next.cpu_list_) ∨
        (r.dev_type = hsa_device_type_t.HSA_DEVICE_TYPE_GPU ∧ r ∈ next.gpu_list_))) ∧
    (∀ (self next : HsaRsrcFactory) (agent : hsa_agent_t) (r : Option AgentInfo),
      AddAgentInfo passes pf self agent = Except.ok (next, r) →
      (∀ h, h ≠ agent → GetAgentInfo next h = GetAgentInfo self h) ∧
      (∀ h, GetAgentInfo self h ≠ none → GetAgentInfo next h ≠ none) ∧
      (∀ x, x ∈ self.cpu_list_ → x ∈ next.cpu_list_) ∧
      (∀ x, x ∈ self.gpu_list_ → x ∈ next.gpu_list_)) ∧
    (∀ f : HsaRsrcFactory, Discovered passes pf f →
      (∀ a, a ∈ f.cpu_agents_ ∨ a ∈ f.gpu_agents_ →
        ∃ r, GetAgentInfo f a = some r ∧ r.dev_id = a ∧
          ((r.dev_type = hsa_device_type_t.HSA_DEVICE_TYPE_CPU ∧ r ∈ f.cpu_list_) ∨
            (r.dev_type = hsa_device_type_t.HSA_DEVICE_TYPE_GPU ∧ r ∈ f.gpu_list_))) ∧
      (∀ a, a ∉ f.cpu_agents_ → a ∉ f.gpu_agents_ → GetAgentInfo f a = none)) := by
  refine ⟨?_, ?_, ?_⟩
  · intro self next agent r hadd
    rcases (AddAgentInfo_ok passes pf self next agent _ hadd).2 with
      ⟨_, hc⟩ | ⟨_, hg⟩ | ⟨_, hnone, _⟩
    · obtain ⟨info, hinfo, hid, hty, _, _, _, _, hcl, _, _, _, hmap⟩ :=
        addCpuAgent_ok passes pf self next agent _ hc
      cases hinfo
      refine ⟨by simp [GetAgentInfo, hmap], hid, Or.inl ⟨hty, by rw [hcl]; simp⟩⟩
    · obtain ⟨info, hinfo, hid, hty, _, _, _, _, hgl, _, _, _, hmap⟩ :=
        addGpuAgent_ok passes pf self next agent _ hg
      cases hinfo
      refine ⟨by simp [GetAgentInfo, hmap], hid, Or.inr ⟨hty, by rw [hgl]; simp⟩⟩
    · cases hnone
  · intro self next agent r hadd
    rcases (AddAgentInfo_ok passes pf self next agent _ hadd).2 with
      ⟨_, hc⟩ | ⟨_, hg⟩ | ⟨_, _, hn⟩
    · obtain ⟨info, _, _, _, _, _, _, _, hcl, _, hgl, _, hmap⟩ :=
        addCpuAgent_ok passes pf self next agent _ hc
      refine ⟨?_, ?_, ?_, ?_⟩
      · intro h hne
        simp [GetAgentInfo, hmap, hne]
      · intro h hsome
        by_cases hne : h = agent
        · simp [GetAgentInfo, hmap, hne]
        · simpa [GetAgentInfo, hmap, hne] using hsome
      · intro x hx
        rw [hcl]
        exact List.mem_append_left _ hx
      · intro x hx
        rw [hgl]
        exact hx
    · obtain ⟨info, _, _, _, _, _, _, _, hgl, _, hcl, _, hmap⟩ :=
        addGpuAgent_ok passes pf self next agent _ hg
      refine ⟨?_, ?_, ?_, ?_⟩
      · intro h hne
        simp [GetAgentInfo, hmap, hne]
      · intro h hsome
        by_cases hne : h = agent
        · simp [GetAgentInfo, hmap, hne]
        · simpa [GetAgentInfo, hmap, hne] using hsome
      · intro x hx
        rw [hcl]
        exact hx
      · intro x hx
        rw [hgl]
        exact List.mem_append_left _ hx
    · subst hn
      exact ⟨fun _ _ => rfl, fun _ h => h, fun _ h => h, fun _ h => h⟩
  · intro f hd
    have inv := Discovered_inv passes pf f hd
    constructor
    · intro a ha
      have hsome : f.agent_map_ a ≠ none := (inv.map_domain a).2 ha
      obtain ⟨r, hr⟩ := Option.ne_none_iff_exists'.1 hsome
      obtain ⟨hid, hcls⟩ := inv.map_record a r hr
      exact ⟨r, hr, hid, hcls⟩
    · intro a hc hg
      by_contra hne
      rcases (inv.map_domain a).1 hne with h | h
      · exact hc h
      · exact hg h

/-- Instance of C14: in the catalog discovered on the sample platform handle 2
gives the accelerator record and handle 3, never stored, gives nothing. -/
theorem lookup_by_handle_witness :
    (∃ r, GetAgentInfo sampleDiscovered 2 = some r ∧ r.dev_id = 2 ∧
      ((r.dev_type = hsa_device_type_t.HSA_DEVICE_TYPE_CPU ∧ r ∈ sampleDiscovered.cpu_list_) ∨
        (r.dev_type = hsa_device_type_t.HSA_DEVICE_TYPE_GPU ∧
          r ∈ sampleDiscovered.gpu_list_))) ∧
    GetAgentInfo sampleDiscovered 3 = none :=
  ⟨((lookup_by_handle passesOnBreak samplePlatform).2.2 sampleDiscovered
      sampleDiscovered_discovered).1 2 (Or.inr (by decide)),
    ((lookup_by_handle passesOnBreak samplePlatform).2.2 sampleDiscovered
      sampleDiscovered_discovered).2 3 (by decide) (by decide)⟩

/-- C15: when the pools of an agent are `pre ++ p :: post`, no pool of `pre`
satisfies the predicate of the variant, `p` does, and the property queries on
the pools of `pre` and on `p` succeed, the iteration with `FindStandardPool`
(`kern_arg` false) or `FindKernArgPool` (`kern_arg` true) returns
`HSA_STATUS_INFO_BREAK` with `p` in the output handle, having invoked the
callback on `pre` and `p` and on no pool of `post`.  When no pool satisfies the
predicate and every query succeeds, it returns `HSA_STATUS_SUCCESS` with the
output handle as it was, having visited every pool. -/
theorem iterate_selects_first :
    (∀ (rt : HsaRuntime) (kern_arg : Bool) (out p : hsa_amd_memory_pool_t)
      (pre post : List hsa_amd_memory_pool_t),
      (∀ q, q ∈ pre → poolQueriesSucceed rt q ∧ ¬ poolSelected rt kern_arg q) →
      poolQueriesSucceed rt p → poolSelected rt kern_arg p →
      hsa_amd_agent_iterate_memory_pools
          (if kern_arg = true then FindKernArgPool rt else FindStandardPool rt)
          (pre ++ p :: post) (some out)
        = Except.ok (HSA_STATUS_INFO_BREAK, some p, pre ++ [p])) ∧
    (∀ (rt : HsaRuntime) (kern_arg : Bool) (out : hsa_amd_memory_pool_t)
      (pools : List hsa_amd_memory_pool_t),
      (∀ q, q ∈ pools → poolQueriesSucceed rt q ∧ ¬ poolSelected rt kern_arg q) →
      hsa_amd_agent_iterate_memory_pools
          (if kern_arg = true then FindKernArgPool rt else FindStandardPool rt)
          pools (some out)
        = Except.ok (HSA_STATUS_SUCCESS, some out, pools)) := by
  have hcb : ∀ (rt : HsaRuntime) (kern_arg : Bool),
      (if kern_arg = true then FindKernArgPool rt else FindStandardPool rt)
        = fun p d => FindGlobalPool rt p d kern_arg := by
    intro rt kern_arg
    cases kern_arg <;> rfl
  constructor
  · intro rt kern_arg out p pre post hpre hq hsel
    rw [hcb]
    exact iterate_match rt kern_arg out p post pre hpre hq hsel
  · intro rt kern_arg out pools hall
    rw [hcb]
    exact iterate_no_match rt kern_arg out pools hall

/-- Instance of C15: among the pools 11, 12 of the sample host agent the
kernel-argument variant passes over 11 and selects 12; the standard variant
finds nothing in the list holding pool 12 alone. -/
theorem iterate_selects_first_witness :
    hsa_amd_agent_iterate_memory_pools (FindKernArgPool sampleRuntime) [11, 12] (some 0)
      = Except.ok (HSA_STATUS_INFO_BREAK, some 12, [11, 12]) ∧
    hsa_amd_agent_iterate_memory_pools (FindStandardPool sampleRuntime) [12] (some 0)
      = Except.ok (HSA_STATUS_SUCCESS, some 0, [12]) := by
  constructor
  · exact iterate_selects_first.1 sampleRuntime true 0 12 [11] []
      (by
        intro q hq
        rw [List.mem_singleton] at hq
        subst hq
        exact ⟨⟨rfl, rfl⟩, by simp [poolSelected, sampleRuntime]⟩)
      ⟨rfl, rfl⟩ (by simp [poolSelected, sampleRuntime, HSA_AMD_SEGMENT_GLOBAL])
  · exact iterate_selects_first.2 sampleRuntime false 0 [12]
      (by
        intro q hq
        rw [List.mem_singleton] at hq
        subst hq
        exact ⟨⟨rfl, rfl⟩, by simp [poolSelected, sampleRuntime]⟩)

theorem iterate_agents_append (cb : hsa_agent_t → HsaRsrcFactory →
      Except hsa_status_t (hsa_status_t × HsaRsrcFactory)) :
    ∀ (pre rest : List hsa_agent_t) (s s1 : HsaRsrcFactory),
      hsa_iterate_agents cb pre s = Except.ok (HSA_STATUS_SUCCESS, s1) →
      hsa_iterate_agents cb (pre ++ rest) s = hsa_iterate_agents cb rest s1 := by
  intro pre
  induction pre with
  | nil =>
    intro rest s s1 h
    simp only [hsa_iterate_agents, Except.ok.injEq, Prod.mk.injEq, true_and] at h
    subst h
    rfl
  | cons a pre ih =>
    intro rest s s1 h
    simp only [List.cons_append, hsa_iterate_agents] at h ⊢
    cases hcb : cb a s with
    | error e => rw [hcb] at h; cases h
    | ok res =>
      obtain ⟨st, s2⟩ := res
      rw [hcb] at h
      simp only
      by_cases hst : st = HSA_STATUS_SUCCESS
      · simp only [hst, if_true] at h ⊢
        simpa only [List.append_eq] using ih rest s2 s1 h
      · simp only [hst, if_false, Except.ok.injEq, Prod.mk.injEq] at h
        exact h.1.elim

/-- C17: for an agent whose device type, successfully queried, is neither CPU
nor GPU, `AddAgentInfo` returns null and leaves the catalog as it was, and
`GetHsaAgentsCallback` returns `HSA_STATUS_ERROR`, on which the enumeration of
the agents stops and the `CHECK_STATUS` of the constructor fails.  Whenever the
callback returns, it returns `HSA_STATUS_SUCCESS` exactly when `AddAgentInfo`
returned a record, which is then stored at the end of the HOST or of the
ACCELERATOR sequence according to its class, and `HSA_STATUS_ERROR`
otherwise. -/
theorem unclassified_agent (passes : hsa_status_t → Bool) (pf : HsaPlatform)
    (self : HsaRsrcFactory) (agent : hsa_agent_t)
    (hdev : (pf.agent_info_device agent).1 = HSA_STATUS_SUCCESS)
    (hcpu : (pf.agent_info_device agent).2 ≠ hsa_device_type_t.HSA_DEVICE_TYPE_CPU)
    (hgpu : (pf.agent_info_device agent).2 ≠ hsa_device_type_t.HSA_DEVICE_TYPE_GPU) :
    AddAgentInfo passes pf self agent = Except.ok (self, none) ∧
    GetHsaAgentsCallback passes pf agent self = Except.ok (HSA_STATUS_ERROR, self) ∧
    (∀ rest, hsa_iterate_agents (GetHsaAgentsCallback passes pf) (agent :: rest) self
      = Except.ok (HSA_STATUS_ERROR, self)) ∧
    (∀ pre rest, hsa_iterate_agents (GetHsaAgentsCallback passes pf) pre HsaRsrcFactory.empty
        = Except.ok (HSA_STATUS_SUCCESS, self) →
      discover passes pf (pre ++ agent :: rest) = Except.error HSA_STATUS_ERROR) ∧
    (∀ (s next : HsaRsrcFactory) (a : hsa_agent_t) (st : hsa_status_t),
      GetHsaAgentsCallback passes pf a s = Except.ok (st, next) →
      (st = HSA_STATUS_SUCCESS ∨ st = HSA_STATUS_ERROR) ∧
      (st = HSA_STATUS_SUCCESS ↔
        ∃ r, AddAgentInfo passes pf s a = Except.ok (next, some r) ∧
          ((r.dev_type = hsa_device_type_t.HSA_DEVICE_TYPE_CPU ∧
              next.cpu_list_ = s.cpu_list_ ++ [r]) ∨
            (r.dev_type = hsa_device_type_t.HSA_DEVICE_TYPE_GPU ∧
              next.gpu_list_ = s.gpu_list_ ++ [r])))) := by
  have hadd : AddAgentInfo passes pf self agent = Except.ok (self, none) := by
    unfold AddAgentInfo CHECK_STATUS
    simp only [hdev, if_true]
    cases hty : (pf.agent_info_device agent).2 with
    | HSA_DEVICE_TYPE_CPU => exact absurd hty hcpu
    | HSA_DEVICE_TYPE_GPU => exact absurd hty hgpu
    | HSA_DEVICE_TYPE_DSP => rfl
  have hcb : GetHsaAgentsCallback passes pf agent self
      = Except.ok (HSA_STATUS_ERROR, self) := by
    unfold GetHsaAgentsCallback
    rw [hadd]
    simp
  have hit : ∀ rest, hsa_iterate_agents (GetHsaAgentsCallback passes pf) (agent :: rest) self
      = Except.ok (HSA_STATUS_ERROR, self) := by
    intro rest
    simp only [hsa_iterate_agents, hcb, reduceCtorEq, if_false]
  refine ⟨hadd, hcb, hit, ?_, ?_⟩
  · intro pre rest hpre
    unfold discover
    rw [iterate_agents_append _ pre (agent :: rest) _ self hpre, hit rest]
    simp [CHECK_STATUS]
  · intro s next a st h
    obtain ⟨r, haddr, hst⟩ := GetHsaAgentsCallback_ok passes pf a s next st h
    constructor
    · rcases hst with ⟨_, h1⟩ | ⟨_, h1⟩
      · exact Or.inl h1
      · exact Or.inr h1
    · constructor
      · intro hs
        rcases hst with ⟨hr, _⟩ | ⟨_, h1⟩
        · rcases (AddAgentInfo_ok passes pf s next a r haddr).2 with
            ⟨_, hc⟩ | ⟨_, hg⟩ | ⟨_, hnone, _⟩
          · obtain ⟨info, hinfo, _, hty, _, _, _, _, hcl, _⟩ :=
              addCpuAgent_ok passes pf s next a r hc
            subst hinfo
            exact ⟨info, haddr, Or.inl ⟨hty, hcl⟩⟩
          · obtain ⟨info, hinfo, _, hty, _, _, _, _, hgl, _⟩ :=
              addGpuAgent_ok passes pf s next a r hg
            subst hinfo
            exact ⟨info, haddr, Or.inr ⟨hty, hgl⟩⟩
          · exact absurd hnone hr
        · rw [h1] at hs
          cases hs
      · rintro ⟨r', hr', _⟩
        rw [haddr] at hr'
        simp only [Except.ok.injEq, Prod.mk.injEq, true_and] at hr'
        rcases hst with ⟨_, h1⟩ | ⟨hnone, _⟩
        · exact h1
        · rw [hnone] at hr'
          cases hr'

/-- Instance of C17: agent 3 of the sample platform is a DSP; adding it to the
discovered catalog stores nothing and the callback returns `HSA_STATUS_ERROR`. -/
theorem unclassified_agent_witness :
    AddAgentInfo passesOnBreak samplePlatform sampleDiscovered 3
      = Except.ok (sampleDiscovered, none) ∧
    GetHsaAgentsCallback passesOnBreak samplePlatform 3 sampleDiscovered
      = Except.ok (HSA_STATUS_ERROR, sampleDiscovered) ∧
    discover passesOnBreak samplePlatform ([1, 2] ++ 3 :: []) = Except.error HSA_STATUS_ERROR := by
  have h := unclassified_agent passesOnBreak samplePlatform sampleDiscovered 3 rfl
    (by decide) (by decide)
  exact ⟨h.1, h.2.1, h.2.2.2.1 [1, 2] [] rfl⟩

end util
end roctracer

namespace MatrixTranspose

end MatrixTranspose
